import Mathlib

/-!
Shallow embedding of the image partial-update tracking subsystem
(`image_gpu_partial_update.cc`): a changeset-based dirty-region tracker.
Pixel rectangles are marked dirty on a chunk grid; committed changesets
form a history consumed by per-consumer cursors.

C++ `int` arithmetic is modelled by `Int` (no overflow occurs in the
scenarios considered); C++ integer division truncates toward zero and is
modelled by `Int.tdiv`. `std::vector<bool>` dirty-flag arrays are modelled
as total functions `Nat → Bool` together with an explicit size field
(reads the C++ code never performs, i.e. out of the vector's range, are
undefined behaviour there and modelled by the function's value).
-/

namespace ImagePartialUpdate

/-- Model of C++ `int` division: truncation toward zero. -/
def cppDiv (a b : Int) : Int := a.tdiv b

/-- Sentinel for a cursor that has never observed any changeset
(`ChangesetID` and `TileNumber` of the source are modelled as `Int`). -/
def UnknownChangesetID : Int := -1

/-- Fixed chunk edge length in pixels (`PartialUpdateRegisterImpl::CHUNK_SIZE`). -/
def CHUNK_SIZE : Int := 256

/-- Pixel-space rectangle, half-open `[xmin,xmax) x [ymin,ymax)` (`rcti`). -/
structure rcti where
  xmin : Int
  xmax : Int
  ymin : Int
  ymax : Int
  deriving DecidableEq, Repr

/-- One updated region handed to a consumer (`PartialUpdateRegion`). -/
structure PartialUpdateRegion where
  region : rcti
  tile_number : Int
  deriving DecidableEq, Repr

/-- List of integers `a, a+1, ..., b-1` (empty when `b ≤ a`). -/
def intRange (a b : Int) : List Int :=
  (List.range (b - a).toNat).map (fun i : Nat => a + (i : Int))

/-- List of integers `a, a+1, ..., b` inclusive (empty when `b < a`). -/
def intRangeIncl (a b : Int) : List Int := intRange a (b + 1)

/-- Point update of a flag array modelled as a function; a negative index
never coincides with a `Nat` index, so such a write is dropped. -/
def setIdx (f : Nat → Bool) (idx : Int) (b : Bool) : Nat → Bool :=
  fun i => if (i : Int) = idx then b else f i

/-- `TileChangeset`: dirty-flag grid over the chunks of one tile. -/
structure TileChangeset where
  chunk_dirty_flags : Nat → Bool
  chunk_dirty_flags_size : Nat
  has_dirty_chunks : Bool
  chunk_x_len : Int
  chunk_y_len : Int

/-- `TileChangeset::init_chunks`: resize the flag vector to the new grid
size (`std::vector::resize` keeps entries below the smaller of old/new
size and value-initializes the rest), then — only when there were dirty
chunks — clear the kept entries and drop the dirty mark. -/
def TileChangeset.init_chunks (t : TileChangeset) (chunk_x_len chunk_y_len : Int) :
    TileChangeset :=
  let chunk_len : Int := chunk_x_len * chunk_y_len
  let previous_chunk_len : Nat := t.chunk_dirty_flags_size
  let resized : Nat → Bool := fun i =>
    if i < min chunk_len.toNat previous_chunk_len then t.chunk_dirty_flags i else false
  if t.has_dirty_chunks then
    { chunk_dirty_flags := fun i =>
        if (i : Int) < min chunk_len (previous_chunk_len : Int) then false else resized i
      chunk_dirty_flags_size := chunk_len.toNat
      has_dirty_chunks := false
      chunk_x_len := chunk_x_len
      chunk_y_len := chunk_y_len }
  else
    { chunk_dirty_flags := resized
      chunk_dirty_flags_size := chunk_len.toNat
      has_dirty_chunks := t.has_dirty_chunks
      chunk_x_len := chunk_x_len
      chunk_y_len := chunk_y_len }

/-- `TileChangeset::reset`. -/
def TileChangeset.reset (t : TileChangeset) : TileChangeset :=
  t.init_chunks t.chunk_x_len t.chunk_y_len

/-- `TileChangeset::mark_chunks_dirty`: the nested loops set the flag of
every chunk in the inclusive range, then `has_dirty_chunks_` is set
unconditionally. -/
def TileChangeset.mark_chunks_dirty (t : TileChangeset)
    (start_x_chunk start_y_chunk end_x_chunk end_y_chunk : Int) : TileChangeset :=
  { t with
    chunk_dirty_flags :=
      ((intRangeIncl start_y_chunk end_y_chunk).flatMap fun chunk_y =>
        (intRangeIncl start_x_chunk end_x_chunk).map fun chunk_x =>
          chunk_y * t.chunk_x_len + chunk_x).foldl
        (fun f idx => setIdx f idx true) t.chunk_dirty_flags
    has_dirty_chunks := true }

/-- `TileChangeset::merge`: OR every flag pairwise over the receiver's
`chunk_len` indices; OR the dirty marks. Grid dimensions must agree
(asserted in the source). -/
def TileChangeset.merge (t other : TileChangeset) : TileChangeset :=
  let chunk_len : Int := t.chunk_x_len * t.chunk_y_len
  { t with
    chunk_dirty_flags := fun i =>
      if (i : Int) < chunk_len then t.chunk_dirty_flags i || other.chunk_dirty_flags i
      else t.chunk_dirty_flags i
    has_dirty_chunks := t.has_dirty_chunks || other.has_dirty_chunks }

/-- `TileChangeset::is_chunk_dirty`: direct flag lookup at
`chunk_y * chunk_x_len + chunk_x` (caller guarantees in-range). -/
def TileChangeset.is_chunk_dirty (t : TileChangeset) (chunk_x chunk_y : Int) : Bool :=
  let chunk_index := chunk_y * t.chunk_x_len + chunk_x
  if 0 ≤ chunk_index then t.chunk_dirty_flags chunk_index.toNat else false

/-- A default-constructed `TileChangeset` (empty flag vector, clean). -/
def TileChangeset.default0 : TileChangeset :=
  ⟨fun _ => false, 0, false, 0, 0⟩

/-- `Changeset`: wraps exactly one `TileChangeset`. -/
structure Changeset where
  tile_changeset : TileChangeset

/-- `PartialUpdateRegisterImpl`: the per-image changeset log. -/
structure PartialUpdateRegisterImpl where
  first_changeset_id : Int
  last_changeset_id : Int
  history : List Changeset
  current_changeset : Changeset
  image_width : Int
  image_height : Int

/-- `PartialUpdateRegisterImpl::mark_full_update`: clear the history,
advance `last_changeset_id`, reset the current changeset, and collapse
`first_changeset_id` onto the new `last_changeset_id`. -/
def PartialUpdateRegisterImpl.mark_full_update (r : PartialUpdateRegisterImpl) :
    PartialUpdateRegisterImpl :=
  { r with
    history := []
    last_changeset_id := r.last_changeset_id + 1
    current_changeset := ⟨r.current_changeset.tile_changeset.reset⟩
    first_changeset_id := r.last_changeset_id + 1 }

/-- `PartialUpdateRegisterImpl::update_resolution`: on a resolution change
recompute the chunk grid (truncating division by `CHUNK_SIZE`), re-init
the current changeset's chunks, and force a full update when the current
changeset (after that re-init) has dirty chunks or the history is
non-empty. -/
def PartialUpdateRegisterImpl.update_resolution (r : PartialUpdateRegisterImpl)
    (buf_x buf_y : Int) : PartialUpdateRegisterImpl :=
  if r.image_width ≠ buf_x ∨ r.image_height ≠ buf_y then
    let chunk_x_len := cppDiv buf_x CHUNK_SIZE
    let chunk_y_len := cppDiv buf_y CHUNK_SIZE
    let r1 := { r with
      image_width := buf_x
      image_height := buf_y
      current_changeset :=
        ⟨r.current_changeset.tile_changeset.init_chunks chunk_x_len chunk_y_len⟩ }
    if r1.current_changeset.tile_changeset.has_dirty_chunks || !r1.history.isEmpty then
      r1.mark_full_update
    else r1
  else r

/-- `PartialUpdateRegisterImpl::chunk_number_for_pixel`: truncating
division by `CHUNK_SIZE`, then decrement for negative pixel offsets. -/
def chunk_number_for_pixel (pixel_offset : Int) : Int :=
  let chunk_offset := cppDiv pixel_offset CHUNK_SIZE
  if pixel_offset < 0 then chunk_offset - 1 else chunk_offset

/-- `PartialUpdateRegisterImpl::mark_region`: convert the half-open pixel
rectangle to an inclusive chunk range, clamp to the grid, early-exit when
the checks of the source fire, otherwise mark the chunk range dirty. -/
def PartialUpdateRegisterImpl.mark_region (r : PartialUpdateRegisterImpl)
    (updated_region : rcti) : PartialUpdateRegisterImpl :=
  let start_x_chunk := chunk_number_for_pixel updated_region.xmin
  let end_x_chunk := chunk_number_for_pixel (updated_region.xmax - 1)
  let start_y_chunk := chunk_number_for_pixel updated_region.ymin
  let end_y_chunk := chunk_number_for_pixel (updated_region.ymax - 1)
  let start_x_chunk := max 0 start_x_chunk
  let start_y_chunk := max 0 start_y_chunk
  let end_x_chunk := min (r.current_changeset.tile_changeset.chunk_x_len - 1) end_x_chunk
  let end_y_chunk := min (r.current_changeset.tile_changeset.chunk_y_len - 1) end_y_chunk
  if start_x_chunk ≥ r.current_changeset.tile_changeset.chunk_x_len then r
  else if start_y_chunk ≥ r.current_changeset.tile_changeset.chunk_y_len then r
  else if end_x_chunk < 0 then r
  else if end_y_chunk < 0 then r
  else
    { r with current_changeset :=
        ⟨r.current_changeset.tile_changeset.mark_chunks_dirty
          start_x_chunk start_y_chunk end_x_chunk end_y_chunk⟩ }

/-- `PartialUpdateRegisterImpl::commit_current_changeset`: append the
current changeset to the history, reset it, advance `last_changeset_id`. -/
def PartialUpdateRegisterImpl.commit_current_changeset (r : PartialUpdateRegisterImpl) :
    PartialUpdateRegisterImpl :=
  { r with
    history := r.history ++ [r.current_changeset]
    current_changeset := ⟨r.current_changeset.tile_changeset.reset⟩
    last_changeset_id := r.last_changeset_id + 1 }

/-- `PartialUpdateRegisterImpl::ensure_empty_changeset`: commit only if
the current changeset is dirty. -/
def PartialUpdateRegisterImpl.ensure_empty_changeset (r : PartialUpdateRegisterImpl) :
    PartialUpdateRegisterImpl :=
  if r.current_changeset.tile_changeset.has_dirty_chunks then r.commit_current_changeset
  else r

/-- `PartialUpdateRegisterImpl::can_construct`. -/
def PartialUpdateRegisterImpl.can_construct (r : PartialUpdateRegisterImpl)
    (changeset_id : Int) : Bool :=
  changeset_id ≥ r.first_changeset_id

/-- `PartialUpdateRegisterImpl::changed_tile_chunks_since`: build a fresh
`TileChangeset` at the current grid dimensions and merge in every history
entry from index `from_changeset - first_changeset_id` on (the
`tile_number` parameter is accepted but unused in the source). -/
def PartialUpdateRegisterImpl.changed_tile_chunks_since (r : PartialUpdateRegisterImpl)
    (_tile_number : Int) (from_changeset : Int) : TileChangeset :=
  let chunk_x_len := cppDiv r.image_width CHUNK_SIZE
  let chunk_y_len := cppDiv r.image_height CHUNK_SIZE
  let changed_tiles := TileChangeset.default0.init_chunks chunk_x_len chunk_y_len
  (r.history.drop (from_changeset - r.first_changeset_id).toNat).foldl
    (fun acc c => acc.merge c.tile_changeset) changed_tiles

/-- The value-initialized register installed by
`image_partial_update_register_ensure` on first use. -/
def register_initial : PartialUpdateRegisterImpl :=
  ⟨0, 0, [], ⟨TileChangeset.default0⟩, 0, 0⟩

/-- `PartialUpdateUserImpl`: a consumer cursor. -/
structure PartialUpdateUserImpl where
  last_changeset_id : Int
  updated_regions : List PartialUpdateRegion
  deriving DecidableEq, Repr

/-- `PartialUpdateUserImpl::clear_updated_regions`. -/
def PartialUpdateUserImpl.clear_updated_regions (u : PartialUpdateUserImpl) :
    PartialUpdateUserImpl :=
  { u with updated_regions := [] }

/-- `BKE_image_partial_update_create`: a fresh cursor with the unknown
sentinel and no pending regions. -/
def BKE_image_partial_update_create : PartialUpdateUserImpl :=
  ⟨UnknownChangesetID, []⟩

/-- `ePartialUpdateCollectResult`. -/
inductive ePartialUpdateCollectResult where
  | NeedFullUpdate
  | NoChanges
  | ChangesAvailable
  deriving DecidableEq, Repr

/-- `ePartialUpdateIterResult`. -/
inductive ePartialUpdateIterResult where
  | Finished
  | ChangeAvailable
  deriving DecidableEq, Repr

/-- The nested loops of `BKE_image_partial_update_collect_changes` that
turn the dirty chunks of a merged changeset into one pixel rectangle per
dirty chunk (appended row-major, `chunk_y` outer). -/
def tile_chunk_regions (changed_chunks : TileChangeset) (tile_number : Int) :
    List PartialUpdateRegion :=
  (intRange 0 changed_chunks.chunk_y_len).flatMap fun chunk_y =>
    (intRange 0 changed_chunks.chunk_x_len).flatMap fun chunk_x =>
      if changed_chunks.is_chunk_dirty chunk_x chunk_y then
        [{ region := ⟨chunk_x * CHUNK_SIZE, (chunk_x + 1) * CHUNK_SIZE,
                      chunk_y * CHUNK_SIZE, (chunk_y + 1) * CHUNK_SIZE⟩
           tile_number := tile_number }]
      else []

/-- One iteration of the per-tile loop of
`BKE_image_partial_update_collect_changes`: merge the historic changes
since the cursor's position for this tile and, when dirty chunks exist,
append one rectangle per dirty chunk to the cursor's buffer. -/
def collect_tile_step (reg : PartialUpdateRegisterImpl) (u : PartialUpdateUserImpl)
    (tile_number : Int) : PartialUpdateUserImpl :=
  let changed_chunks := reg.changed_tile_chunks_since tile_number u.last_changeset_id
  if changed_chunks.has_dirty_chunks then
    { u with updated_regions :=
        u.updated_regions ++ tile_chunk_regions changed_chunks tile_number }
  else u

/-- The per-tile loop of `BKE_image_partial_update_collect_changes`
(`LISTBASE_FOREACH` over `image->tiles`). -/
def collect_tiles_loop (reg : PartialUpdateRegisterImpl) (tiles : List Int)
    (user : PartialUpdateUserImpl) : PartialUpdateUserImpl :=
  tiles.foldl (collect_tile_step reg) user

/-- `BKE_image_partial_update_collect_changes` for an image with the given
tile numbers: clear the cursor's buffered regions, commit any pending
dirty changeset, then evaluate the collection state machine. -/
def BKE_image_partial_update_collect_changes (tiles : List Int)
    (reg : PartialUpdateRegisterImpl) (user : PartialUpdateUserImpl) :
    ePartialUpdateCollectResult × PartialUpdateRegisterImpl × PartialUpdateUserImpl :=
  let user := user.clear_updated_regions
  let reg := reg.ensure_empty_changeset
  if !reg.can_construct user.last_changeset_id then
    (.NeedFullUpdate, reg, { user with last_changeset_id := reg.last_changeset_id })
  else if user.last_changeset_id = reg.last_changeset_id then
    (.NoChanges, reg, user)
  else
    let user := collect_tiles_loop reg tiles user
    (.ChangesAvailable, reg, { user with last_changeset_id := reg.last_changeset_id })

/-- `BKE_image_partial_update_get_next_change`: pop the last buffered
region, or report the finished sentinel when the buffer is empty. -/
def BKE_image_partial_update_get_next_change (user : PartialUpdateUserImpl) :
    ePartialUpdateIterResult × PartialUpdateUserImpl × Option PartialUpdateRegion :=
  if user.updated_regions.isEmpty then (.Finished, user, none)
  else (.ChangeAvailable,
        { user with updated_regions := user.updated_regions.dropLast },
        user.updated_regions.getLast?)

/-- `BKE_image_partial_update_mark_region`: producers update the cached
resolution from the image buffer, then mark the region on the register. -/
def BKE_image_partial_update_mark_region (reg : PartialUpdateRegisterImpl)
    (buf_x buf_y : Int) (updated_region : rcti) : PartialUpdateRegisterImpl :=
  (reg.update_resolution buf_x buf_y).mark_region updated_region

/-- `BKE_image_partial_update_mark_full_update`. -/
def BKE_image_partial_update_mark_full_update (reg : PartialUpdateRegisterImpl) :
    PartialUpdateRegisterImpl :=
  reg.mark_full_update

/-- One register-level operation, for stating invariants over arbitrary
operation sequences. -/
inductive RegOp where
  | markRegion (updated_region : rcti)
  | markFullUpdate
  | commitCurrentChangeset
  | ensureEmptyChangeset
  | updateResolution (buf_x buf_y : Int)

/-- Apply one operation to the register. -/
def applyRegOp (r : PartialUpdateRegisterImpl) : RegOp → PartialUpdateRegisterImpl
  | .markRegion rect => r.mark_region rect
  | .markFullUpdate => r.mark_full_update
  | .commitCurrentChangeset => r.commit_current_changeset
  | .ensureEmptyChangeset => r.ensure_empty_changeset
  | .updateResolution w h => r.update_resolution w h

/-- Apply a sequence of operations to the register, left to right. -/
def runRegOps (r : PartialUpdateRegisterImpl) (ops : List RegOp) :
    PartialUpdateRegisterImpl :=
  ops.foldl applyRegOp r

/-- Whether at least one chunk dirty flag of the changeset's vector is set. -/
def TileChangeset.some_flag_set (t : TileChangeset) : Bool :=
  (List.range t.chunk_dirty_flags_size).any t.chunk_dirty_flags

/-! ### Basic lemmas about the helpers -/

lemma mem_intRange {x a b : Int} : x ∈ intRange a b ↔ a ≤ x ∧ x < b := by
  constructor
  · intro h
    obtain ⟨i, hi, hx⟩ := List.mem_map.mp h
    rw [List.mem_range] at hi
    omega
  · intro h
    exact List.mem_map.mpr ⟨(x - a).toNat, List.mem_range.mpr (by omega), by omega⟩

lemma mem_intRangeIncl {x a b : Int} : x ∈ intRangeIncl a b ↔ a ≤ x ∧ x ≤ b := by
  rw [intRangeIncl, mem_intRange]
  omega

lemma foldl_setIdx_eq (l : List Int) (f : Nat → Bool) (i : Nat) :
    (l.foldl (fun g idx => setIdx g idx true) f) i =
      (f i || decide ((i : Int) ∈ l)) := by
  induction l generalizing f with
  | nil => simp
  | cons x xs ih =>
    simp only [List.foldl_cons, ih, setIdx, List.mem_cons]
    by_cases h : (i : Int) = x <;> simp [h]

/-! ### TileChangeset lemmas -/

lemma TileChangeset.init_chunks_has_dirty (t : TileChangeset) (x y : Int) :
    (t.init_chunks x y).has_dirty_chunks = false := by
  unfold init_chunks
  by_cases h : t.has_dirty_chunks <;> simp [h]

lemma TileChangeset.init_chunks_chunk_x_len (t : TileChangeset) (x y : Int) :
    (t.init_chunks x y).chunk_x_len = x := by
  unfold init_chunks
  by_cases h : t.has_dirty_chunks <;> simp [h]

lemma TileChangeset.init_chunks_chunk_y_len (t : TileChangeset) (x y : Int) :
    (t.init_chunks x y).chunk_y_len = y := by
  unfold init_chunks
  by_cases h : t.has_dirty_chunks <;> simp [h]

/-- When the changeset already satisfies flags-imply-dirty, all flags of a
re-initialized changeset are cleared. -/
lemma TileChangeset.init_chunks_flags_false (t : TileChangeset) (x y : Int)
    (hfid : ∀ i, t.chunk_dirty_flags i = true → t.has_dirty_chunks = true) (i : Nat) :
    (t.init_chunks x y).chunk_dirty_flags i = false := by
  unfold init_chunks
  by_cases h : t.has_dirty_chunks
  · simp only [h, if_true]
    by_cases h1 : (i : Int) < min (x * y) (t.chunk_dirty_flags_size : Int) <;>
      by_cases h2 : i < min (x * y).toNat t.chunk_dirty_flags_size <;>
      simp_all
  · simp only [h, Bool.false_eq_true, if_false]
    by_cases h2 : i < min (x * y).toNat t.chunk_dirty_flags_size
    · simp only [h2, if_true]
      cases hf : t.chunk_dirty_flags i with
      | false => rfl
      | true => exact absurd (hfid i hf) (by simp [h])
    · simp [h2]

lemma TileChangeset.reset_has_dirty (t : TileChangeset) :
    t.reset.has_dirty_chunks = false :=
  t.init_chunks_has_dirty _ _

lemma TileChangeset.reset_chunk_x_len (t : TileChangeset) :
    t.reset.chunk_x_len = t.chunk_x_len :=
  t.init_chunks_chunk_x_len _ _

lemma TileChangeset.reset_chunk_y_len (t : TileChangeset) :
    t.reset.chunk_y_len = t.chunk_y_len :=
  t.init_chunks_chunk_y_len _ _

lemma TileChangeset.mark_chunks_dirty_has_dirty (t : TileChangeset) (sx sy ex ey : Int) :
    (t.mark_chunks_dirty sx sy ex ey).has_dirty_chunks = true := rfl

lemma TileChangeset.mark_chunks_dirty_chunk_x_len (t : TileChangeset) (sx sy ex ey : Int) :
    (t.mark_chunks_dirty sx sy ex ey).chunk_x_len = t.chunk_x_len := rfl

lemma TileChangeset.mark_chunks_dirty_chunk_y_len (t : TileChangeset) (sx sy ex ey : Int) :
    (t.mark_chunks_dirty sx sy ex ey).chunk_y_len = t.chunk_y_len := rfl

lemma TileChangeset.mark_chunks_dirty_flags_def (t : TileChangeset) (sx sy ex ey : Int) :
    (t.mark_chunks_dirty sx sy ex ey).chunk_dirty_flags =
      ((intRangeIncl sy ey).flatMap fun chunk_y =>
        (intRangeIncl sx ex).map fun chunk_x => chunk_y * t.chunk_x_len + chunk_x).foldl
        (fun f idx => setIdx f idx true) t.chunk_dirty_flags := rfl

lemma TileChangeset.mark_chunks_dirty_flags (t : TileChangeset) (sx sy ex ey : Int)
    (i : Nat) :
    (t.mark_chunks_dirty sx sy ex ey).chunk_dirty_flags i = true ↔
      t.chunk_dirty_flags i = true ∨
        ∃ cx cy : Int, sx ≤ cx ∧ cx ≤ ex ∧ sy ≤ cy ∧ cy ≤ ey ∧
          (i : Int) = cy * t.chunk_x_len + cx := by
  rw [TileChangeset.mark_chunks_dirty_flags_def, foldl_setIdx_eq]
  simp only [Bool.or_eq_true, decide_eq_true_eq, List.mem_flatMap, List.mem_map]
  constructor
  · rintro (h | ⟨cy, hcy, cx, hcx, hi⟩)
    · exact Or.inl h
    · exact Or.inr ⟨cx, cy, (mem_intRangeIncl.mp hcx).1, (mem_intRangeIncl.mp hcx).2,
        (mem_intRangeIncl.mp hcy).1, (mem_intRangeIncl.mp hcy).2, hi.symm⟩
  · rintro (h | ⟨cx, cy, h1, h2, h3, h4, hi⟩)
    · exact Or.inl h
    · exact Or.inr ⟨cy, mem_intRangeIncl.mpr ⟨h3, h4⟩,
        cx, mem_intRangeIncl.mpr ⟨h1, h2⟩, hi.symm⟩

lemma TileChangeset.merge_chunk_x_len (t o : TileChangeset) :
    (t.merge o).chunk_x_len = t.chunk_x_len := rfl

lemma TileChangeset.merge_chunk_y_len (t o : TileChangeset) :
    (t.merge o).chunk_y_len = t.chunk_y_len := rfl

lemma TileChangeset.merge_has_dirty (t o : TileChangeset) :
    (t.merge o).has_dirty_chunks = (t.has_dirty_chunks || o.has_dirty_chunks) := rfl

lemma TileChangeset.is_chunk_dirty_eq (t : TileChangeset) (cx cy : Int)
    (h : 0 ≤ cy * t.chunk_x_len + cx) :
    t.is_chunk_dirty cx cy = t.chunk_dirty_flags (cy * t.chunk_x_len + cx).toNat := by
  simp [is_chunk_dirty, h]

/-- The chunk index of an in-grid chunk lies below `chunk_x_len * chunk_y_len`. -/
lemma chunk_index_lt (cx cy xlen ylen : Int) (hx0 : 0 ≤ cx) (hx : cx < xlen)
    (_hy0 : 0 ≤ cy) (hy : cy < ylen) : cy * xlen + cx < xlen * ylen := by
  have h1 : (cy + 1) * xlen ≤ ylen * xlen :=
    mul_le_mul_of_nonneg_right (by omega) (by omega)
  nlinarith [h1]

lemma TileChangeset.merge_flags (t o : TileChangeset) (i : Nat) :
    (t.merge o).chunk_dirty_flags i =
      if (i : Int) < t.chunk_x_len * t.chunk_y_len then
        t.chunk_dirty_flags i || o.chunk_dirty_flags i
      else t.chunk_dirty_flags i := rfl

lemma TileChangeset.merge_is_chunk_dirty (t o : TileChangeset)
    (hdx : o.chunk_x_len = t.chunk_x_len) (cx cy : Int)
    (hx0 : 0 ≤ cx) (hx : cx < t.chunk_x_len) (hy0 : 0 ≤ cy) (hy : cy < t.chunk_y_len) :
    (t.merge o).is_chunk_dirty cx cy =
      (t.is_chunk_dirty cx cy || o.is_chunk_dirty cx cy) := by
  have hidx : 0 ≤ cy * t.chunk_x_len + cx := by nlinarith
  have hlt : cy * t.chunk_x_len + cx < t.chunk_x_len * t.chunk_y_len :=
    chunk_index_lt cx cy _ _ hx0 hx hy0 hy
  simp only [TileChangeset.is_chunk_dirty, TileChangeset.merge_chunk_x_len, hdx]
  rw [if_pos hidx, if_pos hidx, if_pos hidx, TileChangeset.merge_flags,
    if_pos (show ((cy * t.chunk_x_len + cx).toNat : Int) <
      t.chunk_x_len * t.chunk_y_len by omega)]

lemma TileChangeset.default0_init_flags (x y : Int) (i : Nat) :
    (TileChangeset.default0.init_chunks x y).chunk_dirty_flags i = false := by
  apply TileChangeset.init_chunks_flags_false
  intro i h
  simp [default0] at h

lemma TileChangeset.default0_init_is_chunk_dirty (x y : Int) (cx cy : Int) :
    (TileChangeset.default0.init_chunks x y).is_chunk_dirty cx cy = false := by
  simp only [is_chunk_dirty]
  split
  · exact TileChangeset.default0_init_flags x y _
  · rfl

/-! ### Folding merges over a list of changesets -/

lemma foldl_merge_chunk_x_len (l : List Changeset) (init : TileChangeset) :
    (l.foldl (fun acc c => acc.merge c.tile_changeset) init).chunk_x_len =
      init.chunk_x_len := by
  induction l generalizing init with
  | nil => rfl
  | cons c cs ih => rw [List.foldl_cons, ih]; rfl

lemma foldl_merge_chunk_y_len (l : List Changeset) (init : TileChangeset) :
    (l.foldl (fun acc c => acc.merge c.tile_changeset) init).chunk_y_len =
      init.chunk_y_len := by
  induction l generalizing init with
  | nil => rfl
  | cons c cs ih => rw [List.foldl_cons, ih]; rfl

lemma foldl_merge_has_dirty (l : List Changeset) (init : TileChangeset) :
    (l.foldl (fun acc c => acc.merge c.tile_changeset) init).has_dirty_chunks =
      (init.has_dirty_chunks || l.any fun c => c.tile_changeset.has_dirty_chunks) := by
  induction l generalizing init with
  | nil => simp
  | cons c cs ih =>
    rw [List.foldl_cons, ih, TileChangeset.merge_has_dirty, List.any_cons, Bool.or_assoc]

lemma foldl_merge_is_chunk_dirty (l : List Changeset) (init : TileChangeset)
    (hd : ∀ c ∈ l, c.tile_changeset.chunk_x_len = init.chunk_x_len)
    (cx cy : Int) (hx0 : 0 ≤ cx) (hx : cx < init.chunk_x_len)
    (hy0 : 0 ≤ cy) (hy : cy < init.chunk_y_len) :
    (l.foldl (fun acc c => acc.merge c.tile_changeset) init).is_chunk_dirty cx cy = true ↔
      init.is_chunk_dirty cx cy = true ∨
        ∃ c ∈ l, c.tile_changeset.is_chunk_dirty cx cy = true := by
  induction l generalizing init with
  | nil => simp
  | cons c cs ih =>
    rw [List.foldl_cons]
    rw [ih (init.merge c.tile_changeset)
      (fun c' hc' => by
        rw [TileChangeset.merge_chunk_x_len]
        exact hd c' (List.mem_cons_of_mem _ hc'))
      (by rw [TileChangeset.merge_chunk_x_len]; exact hx)
      (by rw [TileChangeset.merge_chunk_y_len]; exact hy)]
    rw [TileChangeset.merge_is_chunk_dirty init c.tile_changeset
      (hd c (List.mem_cons_self _ _)) cx cy hx0 hx hy0 hy]
    simp only [Bool.or_eq_true, List.mem_cons]
    constructor
    · rintro ((h | h) | ⟨c', hc', h⟩)
      · exact Or.inl h
      · exact Or.inr ⟨c, Or.inl rfl, h⟩
      · exact Or.inr ⟨c', Or.inr hc', h⟩
    · rintro (h | ⟨c', (rfl | hc'), h⟩)
      · exact Or.inl (Or.inl h)
      · exact Or.inl (Or.inr h)
      · exact Or.inr ⟨c', hc', h⟩

/-! ### Register operation projections -/

lemma PartialUpdateRegisterImpl.mark_region_proj (r : PartialUpdateRegisterImpl)
    (rect : rcti) :
    (r.mark_region rect).first_changeset_id = r.first_changeset_id ∧
    (r.mark_region rect).last_changeset_id = r.last_changeset_id ∧
    (r.mark_region rect).history = r.history ∧
    (r.mark_region rect).image_width = r.image_width ∧
    (r.mark_region rect).image_height = r.image_height ∧
    (r.mark_region rect).current_changeset.tile_changeset.chunk_x_len =
      r.current_changeset.tile_changeset.chunk_x_len ∧
    (r.mark_region rect).current_changeset.tile_changeset.chunk_y_len =
      r.current_changeset.tile_changeset.chunk_y_len := by
  unfold mark_region
  dsimp only
  repeat' first
    | exact ⟨rfl, rfl, rfl, rfl, rfl, rfl, rfl⟩
    | split

lemma PartialUpdateRegisterImpl.ensure_of_dirty (r : PartialUpdateRegisterImpl)
    (h : r.current_changeset.tile_changeset.has_dirty_chunks = true) :
    r.ensure_empty_changeset = r.commit_current_changeset := by
  unfold ensure_empty_changeset
  rw [if_pos h]

lemma PartialUpdateRegisterImpl.ensure_of_clean (r : PartialUpdateRegisterImpl)
    (h : r.current_changeset.tile_changeset.has_dirty_chunks = false) :
    r.ensure_empty_changeset = r := by
  unfold ensure_empty_changeset
  rw [h]
  simp

/-! ### Invariants -/

/-- One direction of the spec's dirty-summary invariant: any set flag is
accounted for by `has_dirty_chunks`. -/
def TileChangeset.flag_implies_dirty (t : TileChangeset) : Prop :=
  ∀ i, t.chunk_dirty_flags i = true → t.has_dirty_chunks = true

/-- `flag_implies_dirty` for the current changeset and every history entry. -/
def RegFlagInv (r : PartialUpdateRegisterImpl) : Prop :=
  r.current_changeset.tile_changeset.flag_implies_dirty ∧
    ∀ c ∈ r.history, c.tile_changeset.flag_implies_dirty

/-- Chunk-grid dimensions of the current changeset and of every history
entry agree with the dimensions derived from the cached resolution. -/
def RegDimsInv (r : PartialUpdateRegisterImpl) : Prop :=
  (r.current_changeset.tile_changeset.chunk_x_len = cppDiv r.image_width CHUNK_SIZE ∧
    r.current_changeset.tile_changeset.chunk_y_len = cppDiv r.image_height CHUNK_SIZE) ∧
  ∀ c ∈ r.history,
    c.tile_changeset.chunk_x_len = cppDiv r.image_width CHUNK_SIZE ∧
    c.tile_changeset.chunk_y_len = cppDiv r.image_height CHUNK_SIZE

/-- Changeset-ID bookkeeping invariant of the register. -/
def RegIdInv (r : PartialUpdateRegisterImpl) : Prop :=
  0 ≤ r.first_changeset_id ∧
    r.last_changeset_id - r.first_changeset_id = r.history.length

lemma TileChangeset.fid_init_chunks (t : TileChangeset) (x y : Int)
    (hfid : t.flag_implies_dirty) : (t.init_chunks x y).flag_implies_dirty := by
  intro i h
  rw [TileChangeset.init_chunks_flags_false t x y hfid] at h
  exact absurd h (by simp)

lemma TileChangeset.fid_reset (t : TileChangeset) (hfid : t.flag_implies_dirty) :
    t.reset.flag_implies_dirty :=
  t.fid_init_chunks _ _ hfid

lemma TileChangeset.fid_mark_chunks_dirty (t : TileChangeset) (sx sy ex ey : Int) :
    (t.mark_chunks_dirty sx sy ex ey).flag_implies_dirty := by
  intro i _
  rfl

lemma TileChangeset.fid_merge (t o : TileChangeset) (ht : t.flag_implies_dirty)
    (ho : o.flag_implies_dirty) : (t.merge o).flag_implies_dirty := by
  intro i h
  rw [TileChangeset.merge_flags] at h
  rw [TileChangeset.merge_has_dirty]
  split at h
  · rcases Bool.or_eq_true_iff.mp h with h' | h'
    · rw [ht i h']
      rfl
    · rw [ho i h']
      simp
  · rw [ht i h]
    rfl

lemma PartialUpdateRegisterImpl.commit_proj (r : PartialUpdateRegisterImpl) :
    (r.commit_current_changeset).first_changeset_id = r.first_changeset_id ∧
    (r.commit_current_changeset).last_changeset_id = r.last_changeset_id + 1 ∧
    (r.commit_current_changeset).history = r.history ++ [r.current_changeset] ∧
    (r.commit_current_changeset).image_width = r.image_width ∧
    (r.commit_current_changeset).image_height = r.image_height ∧
    (r.commit_current_changeset).current_changeset =
      ⟨r.current_changeset.tile_changeset.reset⟩ :=
  ⟨rfl, rfl, rfl, rfl, rfl, rfl⟩

lemma PartialUpdateRegisterImpl.mark_full_update_proj (r : PartialUpdateRegisterImpl) :
    (r.mark_full_update).first_changeset_id = r.last_changeset_id + 1 ∧
    (r.mark_full_update).last_changeset_id = r.last_changeset_id + 1 ∧
    (r.mark_full_update).history = [] ∧
    (r.mark_full_update).image_width = r.image_width ∧
    (r.mark_full_update).image_height = r.image_height ∧
    (r.mark_full_update).current_changeset =
      ⟨r.current_changeset.tile_changeset.reset⟩ :=
  ⟨rfl, rfl, rfl, rfl, rfl, rfl⟩

lemma PartialUpdateRegisterImpl.mark_region_cases (r : PartialUpdateRegisterImpl)
    (rect : rcti) :
    r.mark_region rect = r ∨
      ∃ sx sy ex ey : Int, r.mark_region rect =
        { r with current_changeset :=
            ⟨r.current_changeset.tile_changeset.mark_chunks_dirty sx sy ex ey⟩ } := by
  unfold mark_region
  dsimp only
  repeat' split
  all_goals first
    | exact Or.inl rfl
    | exact Or.inr ⟨_, _, _, _, rfl⟩

lemma PartialUpdateRegisterImpl.update_resolution_cases (r : PartialUpdateRegisterImpl)
    (w h : Int) :
    ((r.image_width = w ∧ r.image_height = h) ∧ r.update_resolution w h = r) ∨
      (¬(r.image_width = w ∧ r.image_height = h) ∧ r.history = [] ∧
        r.update_resolution w h =
        { r with
            image_width := w
            image_height := h
            current_changeset := ⟨r.current_changeset.tile_changeset.init_chunks
              (cppDiv w CHUNK_SIZE) (cppDiv h CHUNK_SIZE)⟩ }) ∨
      (¬(r.image_width = w ∧ r.image_height = h) ∧ r.history ≠ [] ∧
        r.update_resolution w h =
        { r with
            image_width := w
            image_height := h
            history := []
            last_changeset_id := r.last_changeset_id + 1
            first_changeset_id := r.last_changeset_id + 1
            current_changeset := ⟨(r.current_changeset.tile_changeset.init_chunks
              (cppDiv w CHUNK_SIZE) (cppDiv h CHUNK_SIZE)).reset⟩ }) := by
  unfold update_resolution
  dsimp only
  split
  · rename_i hne
    split
    · rename_i hcond
      refine Or.inr (Or.inr ⟨by tauto, ?_, rfl⟩)
      have hc2 : ((r.current_changeset.tile_changeset.init_chunks
          (cppDiv w CHUNK_SIZE) (cppDiv h CHUNK_SIZE)).has_dirty_chunks
          || !r.history.isEmpty) = true := hcond
      rw [TileChangeset.init_chunks_has_dirty, Bool.false_or] at hc2
      intro hnil
      rw [hnil] at hc2
      simp at hc2
    · rename_i hcond
      refine Or.inr (Or.inl ⟨by tauto, ?_, rfl⟩)
      rw [Bool.not_eq_true, Bool.or_eq_false_iff] at hcond
      have he := hcond.2
      cases hb : r.history.isEmpty with
      | true => exact List.isEmpty_iff.mp hb
      | false => rw [hb] at he; simp at he
  · rename_i hne
    refine Or.inl ⟨by tauto, rfl⟩

lemma RegIdInv_mark_full_update (r : PartialUpdateRegisterImpl) (h : RegIdInv r) :
    RegIdInv r.mark_full_update ∧
      r.last_changeset_id ≤ r.mark_full_update.last_changeset_id := by
  obtain ⟨h0, hlen⟩ := h
  refine ⟨⟨?_, ?_⟩, ?_⟩
  · show (0 : Int) ≤ r.last_changeset_id + 1
    omega
  · show r.last_changeset_id + 1 - (r.last_changeset_id + 1) =
      (([] : List Changeset).length : Int)
    simp
  · show r.last_changeset_id ≤ r.last_changeset_id + 1
    omega

lemma RegIdInv_commit (r : PartialUpdateRegisterImpl) (h : RegIdInv r) :
    RegIdInv r.commit_current_changeset ∧
      r.last_changeset_id ≤ r.commit_current_changeset.last_changeset_id := by
  obtain ⟨h0, hlen⟩ := h
  refine ⟨⟨h0, ?_⟩, ?_⟩
  · show r.last_changeset_id + 1 - r.first_changeset_id =
      ((r.history ++ [r.current_changeset]).length : Int)
    rw [List.length_append, List.length_singleton]
    push_cast
    omega
  · show r.last_changeset_id ≤ r.last_changeset_id + 1
    omega

lemma RegIdInv_applyRegOp (r : PartialUpdateRegisterImpl) (op : RegOp) (h : RegIdInv r) :
    RegIdInv (applyRegOp r op) ∧
      r.last_changeset_id ≤ (applyRegOp r op).last_changeset_id := by
  cases op with
  | markRegion rect =>
    show RegIdInv (r.mark_region rect) ∧
      r.last_changeset_id ≤ (r.mark_region rect).last_changeset_id
    rcases r.mark_region_cases rect with he | ⟨sx, sy, ex, ey, he⟩ <;> rw [he]
    · exact ⟨h, le_refl _⟩
    · exact ⟨h, le_refl _⟩
  | markFullUpdate => exact RegIdInv_mark_full_update r h
  | commitCurrentChangeset => exact RegIdInv_commit r h
  | ensureEmptyChangeset =>
    show RegIdInv r.ensure_empty_changeset ∧
      r.last_changeset_id ≤ r.ensure_empty_changeset.last_changeset_id
    by_cases hd : r.current_changeset.tile_changeset.has_dirty_chunks
    · rw [PartialUpdateRegisterImpl.ensure_of_dirty r hd]
      exact RegIdInv_commit r h
    · rw [PartialUpdateRegisterImpl.ensure_of_clean r (by simpa using hd)]
      exact ⟨h, le_refl _⟩
  | updateResolution w hh =>
    show RegIdInv (r.update_resolution w hh) ∧
      r.last_changeset_id ≤ (r.update_resolution w hh).last_changeset_id
    rcases r.update_resolution_cases w hh with ⟨-, he⟩ | ⟨-, -, he⟩ | ⟨-, -, he⟩ <;> rw [he]
    · exact ⟨h, le_refl _⟩
    · exact ⟨h, le_refl _⟩
    · obtain ⟨h0, hlen⟩ := h
      refine ⟨⟨?_, ?_⟩, ?_⟩
      · show (0 : Int) ≤ r.last_changeset_id + 1
        omega
      · show r.last_changeset_id + 1 - (r.last_changeset_id + 1) =
          (([] : List Changeset).length : Int)
        simp
      · show r.last_changeset_id ≤ r.last_changeset_id + 1
        omega

lemma RegIdInv_runRegOps (r : PartialUpdateRegisterImpl) (ops : List RegOp)
    (h : RegIdInv r) :
    RegIdInv (runRegOps r ops) ∧
      r.last_changeset_id ≤ (runRegOps r ops).last_changeset_id := by
  induction ops generalizing r with
  | nil => exact ⟨h, le_refl _⟩
  | cons op ops ih =>
    obtain ⟨h1, h2⟩ := RegIdInv_applyRegOp r op h
    obtain ⟨h3, h4⟩ := ih (applyRegOp r op) h1
    exact ⟨h3, le_trans h2 h4⟩

lemma RegFlagInv_commit (r : PartialUpdateRegisterImpl) (h : RegFlagInv r) :
    RegFlagInv r.commit_current_changeset := by
  obtain ⟨hc, hh⟩ := h
  refine ⟨TileChangeset.fid_reset _ hc, ?_⟩
  intro c hcmem
  rcases List.mem_append.mp hcmem with h' | h'
  · exact hh c h'
  · rw [List.mem_singleton.mp h']
    exact hc

lemma RegFlagInv_applyRegOp (r : PartialUpdateRegisterImpl) (op : RegOp)
    (h : RegFlagInv r) : RegFlagInv (applyRegOp r op) := by
  obtain ⟨hc, hh⟩ := h
  cases op with
  | markRegion rect =>
    show RegFlagInv (r.mark_region rect)
    rcases r.mark_region_cases rect with he | ⟨sx, sy, ex, ey, he⟩ <;> rw [he]
    · exact ⟨hc, hh⟩
    · exact ⟨TileChangeset.fid_mark_chunks_dirty _ _ _ _ _, hh⟩
  | markFullUpdate =>
    exact ⟨TileChangeset.fid_reset _ hc,
      by intro c hcmem; exact absurd hcmem (List.not_mem_nil c)⟩
  | commitCurrentChangeset => exact RegFlagInv_commit r ⟨hc, hh⟩
  | ensureEmptyChangeset =>
    show RegFlagInv r.ensure_empty_changeset
    by_cases hd : r.current_changeset.tile_changeset.has_dirty_chunks
    · rw [PartialUpdateRegisterImpl.ensure_of_dirty r hd]
      exact RegFlagInv_commit r ⟨hc, hh⟩
    · rw [PartialUpdateRegisterImpl.ensure_of_clean r (by simpa using hd)]
      exact ⟨hc, hh⟩
  | updateResolution w hh2 =>
    show RegFlagInv (r.update_resolution w hh2)
    rcases r.update_resolution_cases w hh2 with ⟨-, he⟩ | ⟨-, -, he⟩ | ⟨-, -, he⟩ <;> rw [he]
    · exact ⟨hc, hh⟩
    · exact ⟨TileChangeset.fid_init_chunks _ _ _ hc, hh⟩
    · exact ⟨TileChangeset.fid_reset _ (TileChangeset.fid_init_chunks _ _ _ hc),
        by intro c hcmem; simp at hcmem⟩

lemma RegFlagInv_runRegOps (r : PartialUpdateRegisterImpl) (ops : List RegOp)
    (h : RegFlagInv r) : RegFlagInv (runRegOps r ops) := by
  induction ops generalizing r with
  | nil => exact h
  | cons op ops ih => exact ih (applyRegOp r op) (RegFlagInv_applyRegOp r op h)

lemma RegDimsInv_commit (r : PartialUpdateRegisterImpl) (h : RegDimsInv r) :
    RegDimsInv r.commit_current_changeset := by
  obtain ⟨⟨hcx, hcy⟩, hh⟩ := h
  refine ⟨⟨(TileChangeset.reset_chunk_x_len _).trans hcx,
    (TileChangeset.reset_chunk_y_len _).trans hcy⟩, ?_⟩
  intro c hcmem
  rcases List.mem_append.mp hcmem with h' | h'
  · exact hh c h'
  · rw [List.mem_singleton.mp h']
    exact ⟨hcx, hcy⟩

lemma RegDimsInv_applyRegOp (r : PartialUpdateRegisterImpl) (op : RegOp)
    (h : RegDimsInv r) : RegDimsInv (applyRegOp r op) := by
  obtain ⟨⟨hcx, hcy⟩, hh⟩ := h
  cases op with
  | markRegion rect =>
    show RegDimsInv (r.mark_region rect)
    rcases r.mark_region_cases rect with he | ⟨sx, sy, ex, ey, he⟩ <;> rw [he]
    · exact ⟨⟨hcx, hcy⟩, hh⟩
    · exact ⟨⟨(TileChangeset.mark_chunks_dirty_chunk_x_len _ _ _ _ _).trans hcx,
        (TileChangeset.mark_chunks_dirty_chunk_y_len _ _ _ _ _).trans hcy⟩, hh⟩
  | markFullUpdate =>
    exact ⟨⟨(TileChangeset.reset_chunk_x_len _).trans hcx,
      (TileChangeset.reset_chunk_y_len _).trans hcy⟩,
      by intro c hcmem; exact absurd hcmem (List.not_mem_nil c)⟩
  | commitCurrentChangeset => exact RegDimsInv_commit r ⟨⟨hcx, hcy⟩, hh⟩
  | ensureEmptyChangeset =>
    show RegDimsInv r.ensure_empty_changeset
    by_cases hd : r.current_changeset.tile_changeset.has_dirty_chunks
    · rw [PartialUpdateRegisterImpl.ensure_of_dirty r hd]
      exact RegDimsInv_commit r ⟨⟨hcx, hcy⟩, hh⟩
    · rw [PartialUpdateRegisterImpl.ensure_of_clean r (by simpa using hd)]
      exact ⟨⟨hcx, hcy⟩, hh⟩
  | updateResolution w hh2 =>
    show RegDimsInv (r.update_resolution w hh2)
    rcases r.update_resolution_cases w hh2 with ⟨-, he⟩ | ⟨-, hnil, he⟩ | ⟨-, -, he⟩ <;> rw [he]
    · exact ⟨⟨hcx, hcy⟩, hh⟩
    · refine ⟨⟨TileChangeset.init_chunks_chunk_x_len _ _ _,
        TileChangeset.init_chunks_chunk_y_len _ _ _⟩, ?_⟩
      intro c hcmem
      rw [show ({ r with
          image_width := w
          image_height := hh2
          current_changeset := ⟨r.current_changeset.tile_changeset.init_chunks
            (cppDiv w CHUNK_SIZE) (cppDiv hh2 CHUNK_SIZE)⟩ } :
            PartialUpdateRegisterImpl).history = r.history from rfl, hnil] at hcmem
      simp at hcmem
    · exact ⟨⟨(TileChangeset.reset_chunk_x_len _).trans
        (TileChangeset.init_chunks_chunk_x_len _ _ _),
        (TileChangeset.reset_chunk_y_len _).trans
        (TileChangeset.init_chunks_chunk_y_len _ _ _)⟩,
        by intro c hcmem; simp at hcmem⟩

lemma RegDimsInv_runRegOps (r : PartialUpdateRegisterImpl) (ops : List RegOp)
    (h : RegDimsInv r) : RegDimsInv (runRegOps r ops) := by
  induction ops generalizing r with
  | nil => exact h
  | cons op ops ih => exact ih (applyRegOp r op) (RegDimsInv_applyRegOp r op h)

/-! ### Collection lemmas -/

lemma PartialUpdateRegisterImpl.ensure_proj (r : PartialUpdateRegisterImpl) :
    r.ensure_empty_changeset.first_changeset_id = r.first_changeset_id ∧
    r.ensure_empty_changeset.image_width = r.image_width ∧
    r.ensure_empty_changeset.image_height = r.image_height := by
  by_cases hd : r.current_changeset.tile_changeset.has_dirty_chunks
  · rw [PartialUpdateRegisterImpl.ensure_of_dirty r hd]
    exact ⟨rfl, rfl, rfl⟩
  · rw [PartialUpdateRegisterImpl.ensure_of_clean r (by simpa using hd)]
    exact ⟨rfl, rfl, rfl⟩

lemma collect_tile_step_spec (reg : PartialUpdateRegisterImpl)
    (u : PartialUpdateUserImpl) (tn : Int) :
    (collect_tile_step reg u tn).last_changeset_id = u.last_changeset_id ∧
    (collect_tile_step reg u tn).updated_regions = u.updated_regions ++
      (if (reg.changed_tile_chunks_since tn u.last_changeset_id).has_dirty_chunks then
        tile_chunk_regions (reg.changed_tile_chunks_since tn u.last_changeset_id) tn
      else []) := by
  unfold collect_tile_step
  dsimp only
  by_cases hcc : (reg.changed_tile_chunks_since tn u.last_changeset_id).has_dirty_chunks
  · rw [if_pos hcc, if_pos hcc]
    exact ⟨rfl, rfl⟩
  · rw [if_neg hcc, if_neg hcc]
    exact ⟨rfl, by simp⟩

lemma collect_tiles_loop_spec (reg : PartialUpdateRegisterImpl) (tiles : List Int)
    (u : PartialUpdateUserImpl) :
    (collect_tiles_loop reg tiles u).last_changeset_id = u.last_changeset_id ∧
    (collect_tiles_loop reg tiles u).updated_regions = u.updated_regions ++
      tiles.flatMap (fun tn =>
        if (reg.changed_tile_chunks_since tn u.last_changeset_id).has_dirty_chunks then
          tile_chunk_regions (reg.changed_tile_chunks_since tn u.last_changeset_id) tn
        else []) := by
  induction tiles generalizing u with
  | nil => exact ⟨rfl, by simp [collect_tiles_loop]⟩
  | cons tn tns ih =>
    obtain ⟨hl, hr⟩ := collect_tile_step_spec reg u tn
    obtain ⟨ihl, ihr⟩ := ih (collect_tile_step reg u tn)
    rw [collect_tiles_loop, List.foldl_cons]
    constructor
    · rw [show tns.foldl (collect_tile_step reg) (collect_tile_step reg u tn) =
        collect_tiles_loop reg tns (collect_tile_step reg u tn) from rfl, ihl, hl]
    · rw [show tns.foldl (collect_tile_step reg) (collect_tile_step reg u tn) =
        collect_tiles_loop reg tns (collect_tile_step reg u tn) from rfl, ihr, hr, hl,
        List.flatMap_cons, List.append_assoc]

lemma mem_tile_chunk_regions (cc : TileChangeset) (tn : Int)
    (pr : PartialUpdateRegion) :
    pr ∈ tile_chunk_regions cc tn ↔
      ∃ cx cy : Int, 0 ≤ cx ∧ cx < cc.chunk_x_len ∧ 0 ≤ cy ∧ cy < cc.chunk_y_len ∧
        cc.is_chunk_dirty cx cy = true ∧
        pr = ⟨⟨cx * CHUNK_SIZE, (cx + 1) * CHUNK_SIZE,
              cy * CHUNK_SIZE, (cy + 1) * CHUNK_SIZE⟩, tn⟩ := by
  unfold tile_chunk_regions
  constructor
  · intro hmem
    obtain ⟨cy, hcy, hx⟩ := List.mem_flatMap.mp hmem
    obtain ⟨cx, hcx, hpr⟩ := List.mem_flatMap.mp hx
    rw [mem_intRange] at hcy hcx
    by_cases hd : cc.is_chunk_dirty cx cy = true
    · rw [if_pos hd] at hpr
      exact ⟨cx, cy, hcx.1, hcx.2, hcy.1, hcy.2, hd, List.mem_singleton.mp hpr⟩
    · rw [if_neg hd] at hpr
      exact absurd hpr (List.not_mem_nil pr)
  · rintro ⟨cx, cy, h1, h2, h3, h4, hd, rfl⟩
    refine List.mem_flatMap.mpr ⟨cy, mem_intRange.mpr ⟨h3, h4⟩, ?_⟩
    refine List.mem_flatMap.mpr ⟨cx, mem_intRange.mpr ⟨h1, h2⟩, ?_⟩
    rw [if_pos hd]
    exact List.mem_singleton.mpr rfl

lemma changed_since_chunk_x_len (r : PartialUpdateRegisterImpl) (tn fc : Int) :
    (r.changed_tile_chunks_since tn fc).chunk_x_len = cppDiv r.image_width CHUNK_SIZE := by
  unfold PartialUpdateRegisterImpl.changed_tile_chunks_since
  dsimp only
  rw [foldl_merge_chunk_x_len, TileChangeset.init_chunks_chunk_x_len]

lemma changed_since_chunk_y_len (r : PartialUpdateRegisterImpl) (tn fc : Int) :
    (r.changed_tile_chunks_since tn fc).chunk_y_len = cppDiv r.image_height CHUNK_SIZE := by
  unfold PartialUpdateRegisterImpl.changed_tile_chunks_since
  dsimp only
  rw [foldl_merge_chunk_y_len, TileChangeset.init_chunks_chunk_y_len]

lemma changed_since_has_dirty (r : PartialUpdateRegisterImpl) (tn fc : Int) :
    (r.changed_tile_chunks_since tn fc).has_dirty_chunks =
      (r.history.drop (fc - r.first_changeset_id).toNat).any
        (fun c => c.tile_changeset.has_dirty_chunks) := by
  unfold PartialUpdateRegisterImpl.changed_tile_chunks_since
  dsimp only
  rw [foldl_merge_has_dirty, TileChangeset.init_chunks_has_dirty, Bool.false_or]

lemma changed_since_is_chunk_dirty (r : PartialUpdateRegisterImpl) (tn fc : Int)
    (hdims : ∀ c ∈ r.history,
      c.tile_changeset.chunk_x_len = cppDiv r.image_width CHUNK_SIZE)
    (cx cy : Int) (hx0 : 0 ≤ cx) (hx : cx < cppDiv r.image_width CHUNK_SIZE)
    (hy0 : 0 ≤ cy) (hy : cy < cppDiv r.image_height CHUNK_SIZE) :
    ((r.changed_tile_chunks_since tn fc).is_chunk_dirty cx cy = true ↔
      ∃ c ∈ r.history.drop (fc - r.first_changeset_id).toNat,
        c.tile_changeset.is_chunk_dirty cx cy = true) := by
  unfold PartialUpdateRegisterImpl.changed_tile_chunks_since
  dsimp only
  rw [foldl_merge_is_chunk_dirty _ _
    (fun c hc => by
      rw [TileChangeset.init_chunks_chunk_x_len]
      exact hdims c (List.mem_of_mem_drop hc))
    cx cy hx0 (by rw [TileChangeset.init_chunks_chunk_x_len]; exact hx)
    hy0 (by rw [TileChangeset.init_chunks_chunk_y_len]; exact hy),
    TileChangeset.default0_init_is_chunk_dirty]
  simp

lemma is_chunk_dirty_implies_has_dirty (t : TileChangeset)
    (hfid : t.flag_implies_dirty) (cx cy : Int)
    (h : t.is_chunk_dirty cx cy = true) : t.has_dirty_chunks = true := by
  simp only [TileChangeset.is_chunk_dirty] at h
  split at h
  · exact hfid _ h
  · exact absurd h (by simp)

lemma collect_needfull (tiles : List Int) (reg : PartialUpdateRegisterImpl)
    (user : PartialUpdateUserImpl)
    (h : user.last_changeset_id < reg.ensure_empty_changeset.first_changeset_id) :
    BKE_image_partial_update_collect_changes tiles reg user =
      (.NeedFullUpdate, reg.ensure_empty_changeset,
        ⟨reg.ensure_empty_changeset.last_changeset_id, []⟩) := by
  unfold BKE_image_partial_update_collect_changes
  dsimp only
  have hc : (!(reg.ensure_empty_changeset.can_construct
      user.clear_updated_regions.last_changeset_id)) = true := by
    simp only [PartialUpdateRegisterImpl.can_construct,
      PartialUpdateUserImpl.clear_updated_regions, ge_iff_le, Bool.not_eq_true',
      decide_eq_false_iff_not, not_le]
    exact h
  rw [if_pos hc]
  rfl

lemma collect_nochanges (tiles : List Int) (reg : PartialUpdateRegisterImpl)
    (user : PartialUpdateUserImpl)
    (h1 : reg.ensure_empty_changeset.first_changeset_id ≤ user.last_changeset_id)
    (h2 : user.last_changeset_id = reg.ensure_empty_changeset.last_changeset_id) :
    BKE_image_partial_update_collect_changes tiles reg user =
      (.NoChanges, reg.ensure_empty_changeset, ⟨user.last_changeset_id, []⟩) := by
  unfold BKE_image_partial_update_collect_changes
  dsimp only
  have hc : (!(reg.ensure_empty_changeset.can_construct
      user.clear_updated_regions.last_changeset_id)) = false := by
    simp only [PartialUpdateRegisterImpl.can_construct,
      PartialUpdateUserImpl.clear_updated_regions, ge_iff_le, Bool.not_eq_false',
      decide_eq_true_eq]
    exact h1
  rw [hc]
  simp only [Bool.false_eq_true, if_false]
  rw [if_pos (show user.clear_updated_regions.last_changeset_id =
    reg.ensure_empty_changeset.last_changeset_id from h2)]
  rfl

lemma collect_changesavail (tiles : List Int) (reg : PartialUpdateRegisterImpl)
    (user : PartialUpdateUserImpl)
    (h1 : reg.ensure_empty_changeset.first_changeset_id ≤ user.last_changeset_id)
    (h2 : user.last_changeset_id ≠ reg.ensure_empty_changeset.last_changeset_id) :
    BKE_image_partial_update_collect_changes tiles reg user =
      (.ChangesAvailable, reg.ensure_empty_changeset,
        ⟨reg.ensure_empty_changeset.last_changeset_id,
          (collect_tiles_loop reg.ensure_empty_changeset tiles
            user.clear_updated_regions).updated_regions⟩) := by
  unfold BKE_image_partial_update_collect_changes
  dsimp only
  have hc : (!(reg.ensure_empty_changeset.can_construct
      user.clear_updated_regions.last_changeset_id)) = false := by
    simp only [PartialUpdateRegisterImpl.can_construct,
      PartialUpdateUserImpl.clear_updated_regions, ge_iff_le, Bool.not_eq_false',
      decide_eq_true_eq]
    exact h1
  rw [hc]
  simp only [Bool.false_eq_true, if_false]
  rw [if_neg (show ¬ user.clear_updated_regions.last_changeset_id =
    reg.ensure_empty_changeset.last_changeset_id from h2)]

/-! ### Claim theorems -/

/-- C3 counterexample: at pixel -256 the code computes chunk -2, while
floor division by the chunk size gives -1, so the claimed equality with
floor division fails at a negative multiple of `CHUNK_SIZE`. -/
theorem C3_counterexample :
    chunk_number_for_pixel (-256) ≠ Int.fdiv (-256) CHUNK_SIZE := by decide

/-- C3 (amended): `chunk_number_for_pixel p` equals `floor (p / chunk_size)`
for every pixel that is not a negative multiple of the chunk size; at a
negative multiple it returns one less than the floor. Pixel -1 still maps
to chunk -1. -/
theorem C3_chunk_number_floor (p : Int) :
    (chunk_number_for_pixel p =
      if p < 0 ∧ CHUNK_SIZE ∣ p then Int.fdiv p CHUNK_SIZE - 1
      else Int.fdiv p CHUNK_SIZE) ∧
    chunk_number_for_pixel (-1) = -1 := by
  refine ⟨?_, by decide⟩
  unfold chunk_number_for_pixel cppDiv CHUNK_SIZE
  dsimp only
  rw [Int.fdiv_eq_ediv _ (by omega)]
  by_cases hp : p < 0
  · rw [if_pos hp]
    have h1 : p.tdiv 256 = -((-p).tdiv 256) := by
      conv_lhs => rw [show p = -(-p) by ring]
      rw [Int.neg_tdiv]
    have h2 : (-p).tdiv 256 = -p / 256 := Int.tdiv_eq_ediv (by omega) (by omega)
    by_cases hd : (256 : Int) ∣ p
    · rw [if_pos ⟨hp, hd⟩]
      omega
    · rw [if_neg (by tauto)]
      omega
  · rw [if_neg hp, if_neg (by tauto)]
    exact Int.tdiv_eq_ediv (by omega) (by omega)

/-- C3 (amended) witness at pixel -300. -/
theorem C3_chunk_number_floor_witness :
    (chunk_number_for_pixel (-300) =
      if (-300 : Int) < 0 ∧ CHUNK_SIZE ∣ (-300 : Int) then
        Int.fdiv (-300) CHUNK_SIZE - 1
      else Int.fdiv (-300) CHUNK_SIZE) ∧
    chunk_number_for_pixel (-1) = -1 :=
  C3_chunk_number_floor (-300)

/-- C7: across any sequence of register operations, the invariant
`last_changeset_id - first_changeset_id = length history` is preserved,
`first_changeset_id ≤ last_changeset_id` holds afterwards, and
`last_changeset_id` never decreases. -/
theorem C7_register_id_invariants (r : PartialUpdateRegisterImpl) (ops : List RegOp)
    (h0 : 0 ≤ r.first_changeset_id)
    (hlen : r.last_changeset_id - r.first_changeset_id = r.history.length) :
    ((runRegOps r ops).last_changeset_id - (runRegOps r ops).first_changeset_id =
      (runRegOps r ops).history.length) ∧
    (runRegOps r ops).first_changeset_id ≤ (runRegOps r ops).last_changeset_id ∧
    r.last_changeset_id ≤ (runRegOps r ops).last_changeset_id := by
  obtain ⟨⟨h0', hlen'⟩, hmono⟩ := RegIdInv_runRegOps r ops ⟨h0, hlen⟩
  exact ⟨hlen', by omega, hmono⟩

/-- C7 witness: the freshly created register, run through a mark, a
commit and a full update. -/
theorem C7_register_id_invariants_witness :
    ((runRegOps register_initial [RegOp.updateResolution 512 512,
        RegOp.markRegion ⟨0, 300, 0, 10⟩, RegOp.ensureEmptyChangeset,
        RegOp.markFullUpdate]).last_changeset_id -
      (runRegOps register_initial [RegOp.updateResolution 512 512,
        RegOp.markRegion ⟨0, 300, 0, 10⟩, RegOp.ensureEmptyChangeset,
        RegOp.markFullUpdate]).first_changeset_id =
      (runRegOps register_initial [RegOp.updateResolution 512 512,
        RegOp.markRegion ⟨0, 300, 0, 10⟩, RegOp.ensureEmptyChangeset,
        RegOp.markFullUpdate]).history.length) ∧
    (runRegOps register_initial [RegOp.updateResolution 512 512,
        RegOp.markRegion ⟨0, 300, 0, 10⟩, RegOp.ensureEmptyChangeset,
        RegOp.markFullUpdate]).first_changeset_id ≤
      (runRegOps register_initial [RegOp.updateResolution 512 512,
        RegOp.markRegion ⟨0, 300, 0, 10⟩, RegOp.ensureEmptyChangeset,
        RegOp.markFullUpdate]).last_changeset_id ∧
    register_initial.last_changeset_id ≤
      (runRegOps register_initial [RegOp.updateResolution 512 512,
        RegOp.markRegion ⟨0, 300, 0, 10⟩, RegOp.ensureEmptyChangeset,
        RegOp.markFullUpdate]).last_changeset_id :=
  C7_register_id_invariants register_initial _ (by decide) (by decide)

/-- C2 counterexample: marking the degenerate zero-area rectangle
`[256,256) x [0,10)` on a 512x512 register (2x2 chunk grid) sets
`has_dirty_chunks` while every chunk flag stays false — the clamped chunk
range is empty but passes the early-exit checks, and `mark_chunks_dirty`
sets the summary flag unconditionally. -/
theorem C2_counterexample :
    ((register_initial.update_resolution 512 512).mark_region
      ⟨256, 256, 0, 10⟩).current_changeset.tile_changeset.has_dirty_chunks = true ∧
    ((register_initial.update_resolution 512 512).mark_region
      ⟨256, 256, 0, 10⟩).current_changeset.tile_changeset.some_flag_set = false := by
  decide

/-- C2 (amended): the implication that survives — whenever at least one
chunk flag is set, `has_dirty_chunks` is set — holds for the current
changeset and all history entries across every sequence of register
operations, and is preserved by merging two changesets; the converse
fails (see the counterexample) because certain degenerate mark rectangles
set `has_dirty_chunks` with an empty chunk range. -/
theorem C2_flag_implies_dirty_invariant :
    (∀ (r : PartialUpdateRegisterImpl) (ops : List RegOp), RegFlagInv r →
      RegFlagInv (runRegOps r ops)) ∧
    (∀ t o : TileChangeset, t.flag_implies_dirty → o.flag_implies_dirty →
      (t.merge o).flag_implies_dirty) :=
  ⟨RegFlagInv_runRegOps, TileChangeset.fid_merge⟩

/-- C2 (amended) witness: the invariant holds after the counterexample's
own operation sequence, started from the fresh register. -/
theorem C2_flag_implies_dirty_invariant_witness :
    RegFlagInv (runRegOps register_initial [RegOp.updateResolution 512 512,
      RegOp.markRegion ⟨256, 256, 0, 10⟩]) :=
  C2_flag_implies_dirty_invariant.1 register_initial
    [RegOp.updateResolution 512 512, RegOp.markRegion ⟨256, 256, 0, 10⟩]
    ⟨(fun _ h => nomatch h), (fun _ hc => nomatch hc)⟩

/-- C5 counterexample: in the end-to-end 512x512 scenario, collection
from a truly fresh cursor (one that has never collected) yields
NEED_FULL_UPDATE with no rectangles — not the two chunk rectangles the
claim promises — because the fresh cursor's UNKNOWN sentinel (-1) is
below `first_changeset_id` (0). -/
theorem C5_counterexample :
    (BKE_image_partial_update_collect_changes [1001]
      (BKE_image_partial_update_mark_region register_initial 512 512 ⟨0, 300, 0, 10⟩)
      BKE_image_partial_update_create).1 =
        .NeedFullUpdate ∧
    (BKE_image_partial_update_collect_changes [1001]
      (BKE_image_partial_update_mark_region register_initial 512 512 ⟨0, 300, 0, 10⟩)
      BKE_image_partial_update_create).2.2.updated_regions = [] := by
  decide

/-- C5 (amended): in the 512x512 scenario with chunk size 256, marking
`[0,300) x [0,10)` dirty marks exactly chunks (0,0) and (1,0); a cursor
that had already synchronized (last seen changeset 0) before the marking
receives CHANGES_AVAILABLE with exactly those two chunk rectangles, while
a fresh cursor first receives NEED_FULL_UPDATE (see the counterexample). -/
theorem C5_end_to_end_scenario :
    (BKE_image_partial_update_collect_changes [1001]
      (BKE_image_partial_update_mark_region register_initial 512 512 ⟨0, 300, 0, 10⟩)
      ⟨0, []⟩).1 = .ChangesAvailable ∧
    (BKE_image_partial_update_collect_changes [1001]
      (BKE_image_partial_update_mark_region register_initial 512 512 ⟨0, 300, 0, 10⟩)
      ⟨0, []⟩).2.2.updated_regions =
      [⟨⟨0, 256, 0, 256⟩, 1001⟩, ⟨⟨256, 512, 0, 256⟩, 1001⟩] := by
  decide

/-- C10: collection clears the cursor's pending region buffer before
evaluating anything (buffered regions from a previous cycle never leak:
collecting with any stale buffer equals collecting with an empty one),
and after a NO_CHANGES or NEED_FULL_UPDATE result the buffer is empty, so
the next-change iterator immediately reports the FINISHED sentinel. -/
theorem C10_clear_before_evaluate (tiles : List Int)
    (reg : PartialUpdateRegisterImpl) (user : PartialUpdateUserImpl) :
    BKE_image_partial_update_collect_changes tiles reg user =
      BKE_image_partial_update_collect_changes tiles reg
        ⟨user.last_changeset_id, []⟩ ∧
    (((BKE_image_partial_update_collect_changes tiles reg user).1 = .NoChanges ∨
      (BKE_image_partial_update_collect_changes tiles reg user).1 =
        .NeedFullUpdate) →
      (BKE_image_partial_update_collect_changes tiles reg user).2.2.updated_regions
          = [] ∧
      BKE_image_partial_update_get_next_change
        (BKE_image_partial_update_collect_changes tiles reg user).2.2 =
        (.Finished,
          (BKE_image_partial_update_collect_changes tiles reg user).2.2, none)) := by
  refine ⟨rfl, ?_⟩
  intro hres
  by_cases h1 : user.last_changeset_id <
      reg.ensure_empty_changeset.first_changeset_id
  · rw [collect_needfull tiles reg user h1]
    exact ⟨rfl, rfl⟩
  · by_cases h2 : user.last_changeset_id =
        reg.ensure_empty_changeset.last_changeset_id
    · rw [collect_nochanges tiles reg user (by omega) h2]
      exact ⟨rfl, rfl⟩
    · rw [collect_changesavail tiles reg user (by omega) h2] at hres
      rcases hres with hres | hres <;> simp at hres

/-- C10 witness: a register and cursor whose collection yields NO_CHANGES
(fresh register, cursor already at changeset 0, stale buffered region). -/
theorem C10_clear_before_evaluate_witness :
    (BKE_image_partial_update_collect_changes [1001] register_initial
      ⟨0, [⟨⟨0, 1, 0, 1⟩, 1001⟩]⟩).2.2.updated_regions = [] ∧
    BKE_image_partial_update_get_next_change
      (BKE_image_partial_update_collect_changes [1001] register_initial
        ⟨0, [⟨⟨0, 1, 0, 1⟩, 1001⟩]⟩).2.2 =
      (.Finished,
        (BKE_image_partial_update_collect_changes [1001] register_initial
          ⟨0, [⟨⟨0, 1, 0, 1⟩, 1001⟩]⟩).2.2, none) :=
  (C10_clear_before_evaluate [1001] register_initial
    ⟨0, [⟨⟨0, 1, 0, 1⟩, 1001⟩]⟩).2 (Or.inl (by decide))

/-- C9: for a cursor that can be serviced incrementally (its last-seen id
lies between `first_changeset_id` and `last_changeset_id`) and a register
whose current changeset holds pending dirty marks, two consecutive
collections with no marks in between return CHANGES_AVAILABLE then
NO_CHANGES, and the second collection leaves the register untouched (it
commits nothing and sees no new history). -/
theorem C9_collect_twice (tiles : List Int) (reg : PartialUpdateRegisterImpl)
    (user : PartialUpdateUserImpl)
    (h1 : reg.first_changeset_id ≤ user.last_changeset_id)
    (h2 : user.last_changeset_id ≤ reg.last_changeset_id)
    (h3 : reg.current_changeset.tile_changeset.has_dirty_chunks = true) :
    (BKE_image_partial_update_collect_changes tiles reg user).1 =
      .ChangesAvailable ∧
    (BKE_image_partial_update_collect_changes tiles
      (BKE_image_partial_update_collect_changes tiles reg user).2.1
      (BKE_image_partial_update_collect_changes tiles reg user).2.2).1 =
      .NoChanges ∧
    (BKE_image_partial_update_collect_changes tiles
      (BKE_image_partial_update_collect_changes tiles reg user).2.1
      (BKE_image_partial_update_collect_changes tiles reg user).2.2).2.1 =
      (BKE_image_partial_update_collect_changes tiles reg user).2.1 := by
  have hens : reg.ensure_empty_changeset = reg.commit_current_changeset :=
    PartialUpdateRegisterImpl.ensure_of_dirty reg h3
  have hfirst : reg.ensure_empty_changeset.first_changeset_id =
      reg.first_changeset_id := by rw [hens]; rfl
  have hlast : reg.ensure_empty_changeset.last_changeset_id =
      reg.last_changeset_id + 1 := by rw [hens]; rfl
  have hcoll1 := collect_changesavail tiles reg user (by omega) (by omega)
  rw [hcoll1]
  have hclean :
      reg.ensure_empty_changeset.current_changeset.tile_changeset.has_dirty_chunks
        = false := by
    rw [hens]
    exact TileChangeset.reset_has_dirty _
  have hens2 : reg.ensure_empty_changeset.ensure_empty_changeset =
      reg.ensure_empty_changeset :=
    PartialUpdateRegisterImpl.ensure_of_clean _ hclean
  have hcoll2 := collect_nochanges tiles reg.ensure_empty_changeset
    ⟨reg.ensure_empty_changeset.last_changeset_id,
      (collect_tiles_loop reg.ensure_empty_changeset tiles
        user.clear_updated_regions).updated_regions⟩
    (by
      rw [hens2]
      show reg.ensure_empty_changeset.first_changeset_id ≤
        reg.ensure_empty_changeset.last_changeset_id
      omega)
    (by rw [hens2])
  refine ⟨rfl, ?_, ?_⟩
  · rw [hcoll2]
  · rw [hcoll2]
    exact hens2

/-- C9 witness: 512x512 register with a pending marked region, cursor
synced at changeset 0. -/
theorem C9_collect_twice_witness :
    (BKE_image_partial_update_collect_changes [1001]
      (BKE_image_partial_update_mark_region register_initial 512 512 ⟨0, 300, 0, 10⟩)
      ⟨0, []⟩).1 = .ChangesAvailable ∧
    (BKE_image_partial_update_collect_changes [1001]
      (BKE_image_partial_update_collect_changes [1001]
        (BKE_image_partial_update_mark_region register_initial 512 512 ⟨0, 300, 0, 10⟩)
        ⟨0, []⟩).2.1
      (BKE_image_partial_update_collect_changes [1001]
        (BKE_image_partial_update_mark_region register_initial 512 512 ⟨0, 300, 0, 10⟩)
        ⟨0, []⟩).2.2).1 = .NoChanges ∧
    (BKE_image_partial_update_collect_changes [1001]
      (BKE_image_partial_update_collect_changes [1001]
        (BKE_image_partial_update_mark_region register_initial 512 512 ⟨0, 300, 0, 10⟩)
        ⟨0, []⟩).2.1
      (BKE_image_partial_update_collect_changes [1001]
        (BKE_image_partial_update_mark_region register_initial 512 512 ⟨0, 300, 0, 10⟩)
        ⟨0, []⟩).2.2).2.1 =
      (BKE_image_partial_update_collect_changes [1001]
        (BKE_image_partial_update_mark_region register_initial 512 512 ⟨0, 300, 0, 10⟩)
        ⟨0, []⟩).2.1 :=
  C9_collect_twice [1001]
    (BKE_image_partial_update_mark_region register_initial 512 512 ⟨0, 300, 0, 10⟩)
    ⟨0, []⟩ (by decide) (by decide) (by decide)

/-- C4 counterexample: a register whose current changeset has dirty
chunks but whose history is empty does NOT force a full update on a
resolution change — `init_chunks` wipes the dirty state before the
check, so `last_changeset_id`/`first_changeset_id` stay 0 (a forced
`mark_full_update` would have advanced them to 1) and the pending dirty
chunks are silently discarded. -/
theorem C4_counterexample :
    (BKE_image_partial_update_mark_region register_initial 512 512
      ⟨0, 10, 0, 10⟩).current_changeset.tile_changeset.has_dirty_chunks = true ∧
    (BKE_image_partial_update_mark_region register_initial 512 512
      ⟨0, 10, 0, 10⟩).history.isEmpty = true ∧
    ((BKE_image_partial_update_mark_region register_initial 512 512
      ⟨0, 10, 0, 10⟩).update_resolution 256 256).last_changeset_id = 0 ∧
    ((BKE_image_partial_update_mark_region register_initial 512 512
      ⟨0, 10, 0, 10⟩).update_resolution 256 256).first_changeset_id = 0 ∧
    ((BKE_image_partial_update_mark_region register_initial 512 512
      ⟨0, 10, 0, 10⟩).update_resolution 256 256).current_changeset.tile_changeset.has_dirty_chunks
      = false := by
  decide

/-- C4 (amended): `update_resolution` with a changed size forces
`mark_full_update` exactly when the history is non-empty — the chunk-grid
re-initialization clears the current changeset's dirty state before the
check, so pending uncommitted dirty chunks alone never force a full
update (they are dropped). The committed-dirty-chunk scenario stands: a
register with non-empty history, resized, yields NEED_FULL_UPDATE for
every previously-synced cursor. -/
theorem C4_resize_forces_full_update :
    (∀ (reg : PartialUpdateRegisterImpl) (w h : Int),
      ¬(reg.image_width = w ∧ reg.image_height = h) → reg.history ≠ [] →
      (reg.update_resolution w h).first_changeset_id = reg.last_changeset_id + 1 ∧
      (reg.update_resolution w h).last_changeset_id = reg.last_changeset_id + 1 ∧
      (reg.update_resolution w h).history = []) ∧
    (∀ (reg : PartialUpdateRegisterImpl) (w h : Int),
      ¬(reg.image_width = w ∧ reg.image_height = h) → reg.history = [] →
      (reg.update_resolution w h).last_changeset_id = reg.last_changeset_id ∧
      (reg.update_resolution w h).first_changeset_id = reg.first_changeset_id ∧
      (reg.update_resolution w h).current_changeset.tile_changeset.has_dirty_chunks
        = false) ∧
    (∀ (reg : PartialUpdateRegisterImpl) (w h : Int)
      (user : PartialUpdateUserImpl) (tiles : List Int),
      ¬(reg.image_width = w ∧ reg.image_height = h) → reg.history ≠ [] →
      user.last_changeset_id ≤ reg.last_changeset_id →
      (BKE_image_partial_update_collect_changes tiles
        (reg.update_resolution w h) user).1 = .NeedFullUpdate) := by
  refine ⟨?_, ?_, ?_⟩
  · intro reg w h hne hhist
    rcases reg.update_resolution_cases w h with ⟨hc, -⟩ | ⟨-, hnil, -⟩ | ⟨-, -, he⟩
    · exact absurd hc hne
    · exact absurd hnil hhist
    · rw [he]
      exact ⟨rfl, rfl, rfl⟩
  · intro reg w h hne hhist
    rcases reg.update_resolution_cases w h with ⟨hc, -⟩ | ⟨-, -, he⟩ | ⟨-, hnil, -⟩
    · exact absurd hc hne
    · rw [he]
      exact ⟨rfl, rfl, TileChangeset.init_chunks_has_dirty _ _ _⟩
    · exact absurd hhist hnil
  · intro reg w h user tiles hne hhist huser
    rcases reg.update_resolution_cases w h with ⟨hc, -⟩ | ⟨-, hnil, -⟩ | ⟨-, -, he⟩
    · exact absurd hc hne
    · exact absurd hnil hhist
    · have hcl : (reg.update_resolution w
          h).current_changeset.tile_changeset.has_dirty_chunks = false := by
        rw [he]
        exact TileChangeset.reset_has_dirty _
      have hens := PartialUpdateRegisterImpl.ensure_of_clean _ hcl
      have hfirst :
          (reg.update_resolution w h).ensure_empty_changeset.first_changeset_id =
            reg.last_changeset_id + 1 := by
        rw [hens, he]
      have hlt : user.last_changeset_id <
          (reg.update_resolution w h).ensure_empty_changeset.first_changeset_id := by
        rw [hfirst]
        omega
      rw [collect_needfull tiles (reg.update_resolution w h) user hlt]

/-- C4 (amended) witness: the 512x512 register with one committed dirty
chunk, resized to 256x256, yields NEED_FULL_UPDATE for a cursor synced at
changeset 0. -/
theorem C4_resize_forces_full_update_witness :
    (BKE_image_partial_update_collect_changes [1001]
      (((BKE_image_partial_update_mark_region register_initial 512 512
        ⟨0, 300, 0, 10⟩).commit_current_changeset).update_resolution 256 256)
      ⟨0, []⟩).1 = .NeedFullUpdate :=
  C4_resize_forces_full_update.2.2
    ((BKE_image_partial_update_mark_region register_initial 512 512
      ⟨0, 300, 0, 10⟩).commit_current_changeset) 256 256 ⟨0, []⟩ [1001]
    (by decide)
    (fun hnil => absurd (congrArg List.length hnil) (by decide))
    (by decide)

lemma collect_regions_mem (tiles : List Int) (reg : PartialUpdateRegisterImpl)
    (user : PartialUpdateUserImpl) (hdims : RegDimsInv reg) (hflag : RegFlagInv reg)
    (pr : PartialUpdateRegion) :
    pr ∈ (collect_tiles_loop reg.ensure_empty_changeset tiles
        user.clear_updated_regions).updated_regions ↔
      ∃ tn ∈ tiles, ∃ cx cy : Int,
        0 ≤ cx ∧ cx < cppDiv reg.image_width CHUNK_SIZE ∧
        0 ≤ cy ∧ cy < cppDiv reg.image_height CHUNK_SIZE ∧
        (∃ c ∈ reg.ensure_empty_changeset.history.drop
            (user.last_changeset_id - reg.first_changeset_id).toNat,
          c.tile_changeset.is_chunk_dirty cx cy = true) ∧
        pr = ⟨⟨cx * CHUNK_SIZE, (cx + 1) * CHUNK_SIZE,
              cy * CHUNK_SIZE, (cy + 1) * CHUNK_SIZE⟩, tn⟩ := by
  have hdims' : RegDimsInv reg.ensure_empty_changeset :=
    RegDimsInv_applyRegOp reg .ensureEmptyChangeset hdims
  have hflag' : RegFlagInv reg.ensure_empty_changeset :=
    RegFlagInv_applyRegOp reg .ensureEmptyChangeset hflag
  obtain ⟨hf, hw, hh⟩ := PartialUpdateRegisterImpl.ensure_proj reg
  obtain ⟨-, hregions⟩ := collect_tiles_loop_spec reg.ensure_empty_changeset tiles
    user.clear_updated_regions
  rw [hregions,
    show user.clear_updated_regions.updated_regions =
      ([] : List PartialUpdateRegion) from rfl,
    List.nil_append, List.mem_flatMap]
  constructor
  · rintro ⟨tn, htn, hpr⟩
    by_cases hg : (reg.ensure_empty_changeset.changed_tile_chunks_since tn
        user.clear_updated_regions.last_changeset_id).has_dirty_chunks
    · rw [if_pos hg, mem_tile_chunk_regions] at hpr
      obtain ⟨cx, cy, h1, h2, h3, h4, hd, hpreq⟩ := hpr
      rw [changed_since_chunk_x_len] at h2
      rw [changed_since_chunk_y_len] at h4
      rw [changed_since_is_chunk_dirty reg.ensure_empty_changeset tn _
        (fun c hc => (hdims'.2 c hc).1) cx cy h1 h2 h3 h4] at hd
      refine ⟨tn, htn, cx, cy, h1, by rw [← hw]; exact h2, h3,
        by rw [← hh]; exact h4, ?_, hpreq⟩
      rw [← hf]
      exact hd
    · rw [if_neg hg] at hpr
      exact absurd hpr (List.not_mem_nil pr)
  · rintro ⟨tn, htn, cx, cy, h1, h2, h3, h4, ⟨c, hcmem, hcdirty⟩, hpreq⟩
    have h2' : cx < cppDiv reg.ensure_empty_changeset.image_width CHUNK_SIZE := by
      rw [hw]
      exact h2
    have h4' : cy < cppDiv reg.ensure_empty_changeset.image_height CHUNK_SIZE := by
      rw [hh]
      exact h4
    have hcmem' : c ∈ reg.ensure_empty_changeset.history.drop
        (user.clear_updated_regions.last_changeset_id -
          reg.ensure_empty_changeset.first_changeset_id).toNat := by
      rw [show user.clear_updated_regions.last_changeset_id =
        user.last_changeset_id from rfl, hf]
      exact hcmem
    have hcc : (reg.ensure_empty_changeset.changed_tile_chunks_since tn
        user.clear_updated_regions.last_changeset_id).is_chunk_dirty cx cy = true := by
      rw [changed_since_is_chunk_dirty reg.ensure_empty_changeset tn _
        (fun c hc => (hdims'.2 c hc).1) cx cy h1 h2' h3 h4']
      exact ⟨c, hcmem', hcdirty⟩
    have hguard : (reg.ensure_empty_changeset.changed_tile_chunks_since tn
        user.clear_updated_regions.last_changeset_id).has_dirty_chunks = true := by
      rw [changed_since_has_dirty, List.any_eq_true]
      exact ⟨c, hcmem', is_chunk_dirty_implies_has_dirty c.tile_changeset
        (hflag'.2 c (List.mem_of_mem_drop hcmem')) cx cy hcdirty⟩
    refine ⟨tn, htn, ?_⟩
    rw [if_pos hguard, mem_tile_chunk_regions]
    exact ⟨cx, cy, h1, by rw [changed_since_chunk_x_len]; exact h2', h3,
      by rw [changed_since_chunk_y_len]; exact h4', hcc, hpreq⟩

/-- C1: after the register commits any pending dirty current changeset,
a collection attempt is decided exactly by the spec's state machine —
the UNKNOWN sentinel or a last-seen id below `first_changeset_id` yields
NEED_FULL_UPDATE (so never CHANGES_AVAILABLE); a last-seen id equal to
the post-commit `last_changeset_id` yields NO_CHANGES; otherwise
CHANGES_AVAILABLE, with the buffered rectangles enumerating exactly the
chunks dirty in some history entry at or after the cursor's position. -/
theorem C1_collect_state_machine (tiles : List Int)
    (reg : PartialUpdateRegisterImpl) (user : PartialUpdateUserImpl)
    (hfirst : 0 ≤ reg.first_changeset_id)
    (hdims : RegDimsInv reg) (hflag : RegFlagInv reg) :
    ((user.last_changeset_id = UnknownChangesetID ∨
        user.last_changeset_id < reg.ensure_empty_changeset.first_changeset_id) →
      (BKE_image_partial_update_collect_changes tiles reg user).1 =
        .NeedFullUpdate) ∧
    ((reg.ensure_empty_changeset.first_changeset_id ≤ user.last_changeset_id ∧
        user.last_changeset_id = reg.ensure_empty_changeset.last_changeset_id) →
      (BKE_image_partial_update_collect_changes tiles reg user).1 = .NoChanges) ∧
    ((reg.ensure_empty_changeset.first_changeset_id ≤ user.last_changeset_id ∧
        user.last_changeset_id ≠ reg.ensure_empty_changeset.last_changeset_id) →
      (BKE_image_partial_update_collect_changes tiles reg user).1 =
        .ChangesAvailable ∧
      (∀ pr : PartialUpdateRegion,
        pr ∈ (BKE_image_partial_update_collect_changes tiles reg
            user).2.2.updated_regions ↔
          ∃ tn ∈ tiles, ∃ cx cy : Int,
            0 ≤ cx ∧ cx < cppDiv reg.image_width CHUNK_SIZE ∧
            0 ≤ cy ∧ cy < cppDiv reg.image_height CHUNK_SIZE ∧
            (∃ c ∈ reg.ensure_empty_changeset.history.drop
                (user.last_changeset_id - reg.first_changeset_id).toNat,
              c.tile_changeset.is_chunk_dirty cx cy = true) ∧
            pr = ⟨⟨cx * CHUNK_SIZE, (cx + 1) * CHUNK_SIZE,
                  cy * CHUNK_SIZE, (cy + 1) * CHUNK_SIZE⟩, tn⟩)) := by
  obtain ⟨hf, -, -⟩ := PartialUpdateRegisterImpl.ensure_proj reg
  refine ⟨?_, ?_, ?_⟩
  · intro hcase
    have hlt : user.last_changeset_id <
        reg.ensure_empty_changeset.first_changeset_id := by
      rcases hcase with hu | hlt
      · rw [hu]
        unfold UnknownChangesetID
        omega
      · exact hlt
    rw [collect_needfull tiles reg user hlt]
  · rintro ⟨ha, hb⟩
    rw [collect_nochanges tiles reg user ha hb]
  · rintro ⟨ha, hb⟩
    rw [collect_changesavail tiles reg user ha hb]
    exact ⟨rfl, fun pr => collect_regions_mem tiles reg user hdims hflag pr⟩

/-- C1 witness: the fresh register and a fresh cursor (UNKNOWN sentinel)
take the NEED_FULL_UPDATE branch. -/
theorem C1_collect_state_machine_witness :
    ((BKE_image_partial_update_create.last_changeset_id = UnknownChangesetID ∨
        BKE_image_partial_update_create.last_changeset_id <
          register_initial.ensure_empty_changeset.first_changeset_id) →
      (BKE_image_partial_update_collect_changes [1001] register_initial
        BKE_image_partial_update_create).1 = .NeedFullUpdate) ∧
    ((register_initial.ensure_empty_changeset.first_changeset_id ≤
        BKE_image_partial_update_create.last_changeset_id ∧
        BKE_image_partial_update_create.last_changeset_id =
          register_initial.ensure_empty_changeset.last_changeset_id) →
      (BKE_image_partial_update_collect_changes [1001] register_initial
        BKE_image_partial_update_create).1 = .NoChanges) ∧
    ((register_initial.ensure_empty_changeset.first_changeset_id ≤
        BKE_image_partial_update_create.last_changeset_id ∧
        BKE_image_partial_update_create.last_changeset_id ≠
          register_initial.ensure_empty_changeset.last_changeset_id) →
      (BKE_image_partial_update_collect_changes [1001] register_initial
        BKE_image_partial_update_create).1 = .ChangesAvailable ∧
      (∀ pr : PartialUpdateRegion,
        pr ∈ (BKE_image_partial_update_collect_changes [1001] register_initial
            BKE_image_partial_update_create).2.2.updated_regions ↔
          ∃ tn ∈ [(1001 : Int)], ∃ cx cy : Int,
            0 ≤ cx ∧ cx < cppDiv register_initial.image_width CHUNK_SIZE ∧
            0 ≤ cy ∧ cy < cppDiv register_initial.image_height CHUNK_SIZE ∧
            (∃ c ∈ register_initial.ensure_empty_changeset.history.drop
                (BKE_image_partial_update_create.last_changeset_id -
                  register_initial.first_changeset_id).toNat,
              c.tile_changeset.is_chunk_dirty cx cy = true) ∧
            pr = ⟨⟨cx * CHUNK_SIZE, (cx + 1) * CHUNK_SIZE,
                  cy * CHUNK_SIZE, (cy + 1) * CHUNK_SIZE⟩, tn⟩)) :=
  C1_collect_state_machine [1001] register_initial BKE_image_partial_update_create
    (by decide) ⟨⟨by decide, by decide⟩, fun c hc => nomatch hc⟩
    ⟨(fun _ h => nomatch h), (fun _ hc => nomatch hc)⟩

/-- If pixel `px` lies in chunk `cx` (nonnegative) and at or right of
`xmin`, the chunk computed for `xmin` is at most `cx`. -/
lemma cnfp_le_of_le (xmin px cx : Int) (hx1 : xmin ≤ px)
    (h2 : px < (cx + 1) * CHUNK_SIZE) (_hcx : 0 ≤ cx) :
    chunk_number_for_pixel xmin ≤ cx := by
  have hCS : CHUNK_SIZE = 256 := rfl
  rw [hCS] at h2
  unfold chunk_number_for_pixel cppDiv CHUNK_SIZE
  dsimp only
  by_cases hneg : xmin < 0
  · rw [if_pos hneg]
    have h1 : xmin.tdiv 256 = -((-xmin).tdiv 256) := by
      conv_lhs => rw [show xmin = -(-xmin) by ring]
      rw [Int.neg_tdiv]
    have h2' : (-xmin).tdiv 256 = -xmin / 256 := Int.tdiv_eq_ediv (by omega) (by omega)
    omega
  · rw [if_neg hneg]
    have h2' : xmin.tdiv 256 = xmin / 256 := Int.tdiv_eq_ediv (by omega) (by omega)
    omega

/-- If pixel `px` lies in chunk `cx` (nonnegative) and strictly left of
`xmax`, the chunk computed for `xmax - 1` is at least `cx`. -/
lemma cnfp_ge_of_lt (xmax px cx : Int) (hx2 : px < xmax)
    (h1 : cx * CHUNK_SIZE ≤ px) (_hcx : 0 ≤ cx) :
    cx ≤ chunk_number_for_pixel (xmax - 1) := by
  have hCS : CHUNK_SIZE = 256 := rfl
  rw [hCS] at h1
  have hnn : 0 ≤ xmax - 1 := by omega
  unfold chunk_number_for_pixel cppDiv CHUNK_SIZE
  dsimp only
  rw [if_neg (by omega)]
  have h2' : (xmax - 1).tdiv 256 = (xmax - 1) / 256 :=
    Int.tdiv_eq_ediv (by omega) (by omega)
  omega

/-- A mark of a rectangle lands on every in-grid chunk holding one of the
rectangle's pixels: the clamped inclusive chunk range passes the early
exits and contains the chunk, whose flag is therefore set. -/
lemma mark_region_marks (r : PartialUpdateRegisterImpl) (R : rcti)
    (cx cy px py : Int)
    (hdx : r.current_changeset.tile_changeset.chunk_x_len =
      cppDiv r.image_width CHUNK_SIZE)
    (hdy : r.current_changeset.tile_changeset.chunk_y_len =
      cppDiv r.image_height CHUNK_SIZE)
    (hpx1 : R.xmin ≤ px) (hpx2 : px < R.xmax)
    (hpy1 : R.ymin ≤ py) (hpy2 : py < R.ymax)
    (hcx1 : cx * CHUNK_SIZE ≤ px) (hcx2 : px < (cx + 1) * CHUNK_SIZE)
    (hcy1 : cy * CHUNK_SIZE ≤ py) (hcy2 : py < (cy + 1) * CHUNK_SIZE)
    (hgx0 : 0 ≤ cx) (hgx : cx < cppDiv r.image_width CHUNK_SIZE)
    (hgy0 : 0 ≤ cy) (hgy : cy < cppDiv r.image_height CHUNK_SIZE) :
    (r.mark_region R).current_changeset.tile_changeset.is_chunk_dirty cx cy = true ∧
    (r.mark_region R).current_changeset.tile_changeset.has_dirty_chunks = true := by
  have hsx : chunk_number_for_pixel R.xmin ≤ cx := cnfp_le_of_le _ px cx hpx1 hcx2 hgx0
  have hex : cx ≤ chunk_number_for_pixel (R.xmax - 1) :=
    cnfp_ge_of_lt _ px cx hpx2 hcx1 hgx0
  have hsy : chunk_number_for_pixel R.ymin ≤ cy := cnfp_le_of_le _ py cy hpy1 hcy2 hgy0
  have hey : cy ≤ chunk_number_for_pixel (R.ymax - 1) :=
    cnfp_ge_of_lt _ py cy hpy2 hcy1 hgy0
  unfold PartialUpdateRegisterImpl.mark_region
  dsimp only
  rw [if_neg (by omega), if_neg (by omega), if_neg (by omega), if_neg (by omega)]
  refine ⟨?_, rfl⟩
  have hxlen : 0 ≤ r.current_changeset.tile_changeset.chunk_x_len := by omega
  have h1 : 0 ≤ cy * r.current_changeset.tile_changeset.chunk_x_len :=
    mul_nonneg hgy0 hxlen
  have hidx : 0 ≤ cy * r.current_changeset.tile_changeset.chunk_x_len + cx := by
    omega
  rw [TileChangeset.is_chunk_dirty_eq _ cx cy
    (by rw [TileChangeset.mark_chunks_dirty_chunk_x_len]; exact hidx),
    TileChangeset.mark_chunks_dirty_chunk_x_len,
    TileChangeset.mark_chunks_dirty_flags]
  exact Or.inr ⟨cx, cy, by omega, by omega, by omega, by omega, by omega⟩

/-- C6 counterexample: on a 300x300 image the chunk grid truncates to
1x1 (300 / 256 = 1), so the remainder pixels 256..299 belong to no
tracked chunk: marking `[260,280) x [0,10)` is dropped entirely, the
following collection reports NO_CHANGES with no rectangles, yet pixel
(260, 5) lies both in the marked rectangle and in chunk (1, 0) — a chunk
overlapping the marked rectangle is not covered by the returned union. -/
theorem C6_counterexample :
    ((1 : Int) * CHUNK_SIZE ≤ 260 ∧ (260 : Int) < (1 + 1) * CHUNK_SIZE ∧
      (0 : Int) * CHUNK_SIZE ≤ 5 ∧ (5 : Int) < (0 + 1) * CHUNK_SIZE ∧
      (⟨260, 280, 0, 10⟩ : rcti).xmin ≤ 260 ∧ (260 : Int) < (⟨260, 280, 0, 10⟩ : rcti).xmax ∧
      (⟨260, 280, 0, 10⟩ : rcti).ymin ≤ 5 ∧ (5 : Int) < (⟨260, 280, 0, 10⟩ : rcti).ymax) ∧
    (BKE_image_partial_update_collect_changes [1001]
      (BKE_image_partial_update_mark_region register_initial 300 300
        ⟨260, 280, 0, 10⟩) ⟨0, []⟩).1 = .NoChanges ∧
    (BKE_image_partial_update_collect_changes [1001]
      (BKE_image_partial_update_mark_region register_initial 300 300
        ⟨260, 280, 0, 10⟩) ⟨0, []⟩).2.2.updated_regions = [] := by
  decide

/-- C6 (amended): coverage completeness holds for the chunks of the
tracked grid — the grid is `width / chunk_size` by `height / chunk_size`
chunks with TRUNCATING division, so remainder pixels beyond the last full
chunk are NOT tracked (see the counterexample). For every serviceable
cursor and every in-grid chunk containing a pixel of the marked rectangle
R, the collection following `mark_region R` returns CHANGES_AVAILABLE and
its rectangles include that chunk's full rectangle — no in-grid dirty
chunk is missed. -/
theorem C6_coverage_completeness (tiles : List Int) (tn : Int) (htn : tn ∈ tiles)
    (reg : PartialUpdateRegisterImpl) (user : PartialUpdateUserImpl) (R : rcti)
    (cx cy px py : Int)
    (hdims : RegDimsInv reg) (hflag : RegFlagInv reg)
    (hserv : reg.first_changeset_id ≤ user.last_changeset_id)
    (hlast : user.last_changeset_id ≤ reg.last_changeset_id)
    (hlen : reg.last_changeset_id - reg.first_changeset_id = reg.history.length)
    (hpx1 : R.xmin ≤ px) (hpx2 : px < R.xmax)
    (hpy1 : R.ymin ≤ py) (hpy2 : py < R.ymax)
    (hcx1 : cx * CHUNK_SIZE ≤ px) (hcx2 : px < (cx + 1) * CHUNK_SIZE)
    (hcy1 : cy * CHUNK_SIZE ≤ py) (hcy2 : py < (cy + 1) * CHUNK_SIZE)
    (hgx0 : 0 ≤ cx) (hgx : cx < cppDiv reg.image_width CHUNK_SIZE)
    (hgy0 : 0 ≤ cy) (hgy : cy < cppDiv reg.image_height CHUNK_SIZE) :
    (BKE_image_partial_update_collect_changes tiles (reg.mark_region R) user).1 =
      .ChangesAvailable ∧
    ∃ pr ∈ (BKE_image_partial_update_collect_changes tiles (reg.mark_region R)
        user).2.2.updated_regions,
      pr.region = ⟨cx * CHUNK_SIZE, (cx + 1) * CHUNK_SIZE,
        cy * CHUNK_SIZE, (cy + 1) * CHUNK_SIZE⟩ ∧ pr.tile_number = tn := by
  obtain ⟨hmf, hml, hmh, hmw, hmhh, -, -⟩ :=
    PartialUpdateRegisterImpl.mark_region_proj reg R
  obtain ⟨hmark1, hmark2⟩ := mark_region_marks reg R cx cy px py
    hdims.1.1 hdims.1.2 hpx1 hpx2 hpy1 hpy2 hcx1 hcx2 hcy1 hcy2 hgx0 hgx hgy0 hgy
  have hdims1 : RegDimsInv (reg.mark_region R) :=
    RegDimsInv_applyRegOp reg (.markRegion R) hdims
  have hflag1 : RegFlagInv (reg.mark_region R) :=
    RegFlagInv_applyRegOp reg (.markRegion R) hflag
  have hens : (reg.mark_region R).ensure_empty_changeset =
      (reg.mark_region R).commit_current_changeset :=
    PartialUpdateRegisterImpl.ensure_of_dirty _ hmark2
  have hensf : (reg.mark_region R).ensure_empty_changeset.first_changeset_id =
      reg.first_changeset_id := by
    rw [hens]
    show (reg.mark_region R).first_changeset_id = reg.first_changeset_id
    exact hmf
  have hensl : (reg.mark_region R).ensure_empty_changeset.last_changeset_id =
      reg.last_changeset_id + 1 := by
    rw [hens]
    show (reg.mark_region R).last_changeset_id + 1 = reg.last_changeset_id + 1
    rw [hml]
  rw [collect_changesavail tiles (reg.mark_region R) user (by omega) (by omega)]
  refine ⟨rfl, ?_⟩
  have hmem := (collect_regions_mem tiles (reg.mark_region R) user hdims1 hflag1
    ⟨⟨cx * CHUNK_SIZE, (cx + 1) * CHUNK_SIZE,
      cy * CHUNK_SIZE, (cy + 1) * CHUNK_SIZE⟩, tn⟩).mpr ?_
  · exact ⟨_, hmem, rfl, rfl⟩
  · refine ⟨tn, htn, cx, cy, hgx0, by rw [hmw]; exact hgx, hgy0,
      by rw [hmhh]; exact hgy, ?_, rfl⟩
    refine ⟨(reg.mark_region R).current_changeset, ?_, hmark1⟩
    have hhist : (reg.mark_region R).ensure_empty_changeset.history =
        reg.history ++ [(reg.mark_region R).current_changeset] := by
      rw [hens]
      show (reg.mark_region R).history ++ _ = _
      rw [hmh]
    rw [hhist, hmf, List.drop_append_of_le_length (by omega)]
    exact List.mem_append_right _ (List.mem_singleton.mpr rfl)

/-- C6 (amended) witness: the 512x512 scenario — chunk (1,0) holds pixel
(260, 5) of the marked rectangle `[0,300) x [0,10)` and its rectangle is
among the returned regions. -/
theorem C6_coverage_completeness_witness :
    (BKE_image_partial_update_collect_changes [1001]
      ((register_initial.update_resolution 512 512).mark_region ⟨0, 300, 0, 10⟩)
      ⟨0, []⟩).1 = .ChangesAvailable ∧
    ∃ pr ∈ (BKE_image_partial_update_collect_changes [1001]
        ((register_initial.update_resolution 512 512).mark_region ⟨0, 300, 0, 10⟩)
        ⟨0, []⟩).2.2.updated_regions,
      pr.region = ⟨1 * CHUNK_SIZE, (1 + 1) * CHUNK_SIZE,
        0 * CHUNK_SIZE, (0 + 1) * CHUNK_SIZE⟩ ∧ pr.tile_number = 1001 :=
  C6_coverage_completeness [1001] 1001 (List.mem_singleton.mpr rfl)
    (register_initial.update_resolution 512 512) ⟨0, []⟩ ⟨0, 300, 0, 10⟩
    1 0 260 5
    (RegDimsInv_applyRegOp register_initial (.updateResolution 512 512)
      ⟨⟨by decide, by decide⟩, fun c hc => nomatch hc⟩)
    (RegFlagInv_applyRegOp register_initial (.updateResolution 512 512)
      ⟨(fun _ h => nomatch h), (fun _ hc => nomatch hc)⟩)
    (by decide) (by decide) (by decide)
    (by decide) (by decide) (by decide) (by decide)
    (by decide) (by decide) (by decide) (by decide)
    (by decide) (by decide) (by decide) (by decide)

/-- C8: for two Tile Changesets with identical grid dimensions, after a
merge a chunk is dirty in the receiver iff it was dirty in either operand
before, the dirty summary is the disjunction of the operands' summaries,
and merging a changeset with itself leaves it unchanged. -/
theorem C8_merge_semantics (A B : TileChangeset)
    (hx : B.chunk_x_len = A.chunk_x_len) (hy : B.chunk_y_len = A.chunk_y_len) :
    (∀ cx cy : Int, 0 ≤ cx → cx < A.chunk_x_len → 0 ≤ cy → cy < A.chunk_y_len →
      ((A.merge B).is_chunk_dirty cx cy = true ↔
        (A.is_chunk_dirty cx cy = true ∨ B.is_chunk_dirty cx cy = true))) ∧
    (A.merge B).has_dirty_chunks = (A.has_dirty_chunks || B.has_dirty_chunks) ∧
    A.merge A = A := by
  refine ⟨?_, rfl, ?_⟩
  · intro cx cy h1 h2 h3 h4
    rw [TileChangeset.merge_is_chunk_dirty A B hx cx cy h1 h2 h3 h4]
    simp
  · cases A with
    | mk f s hd xl yl =>
      have hfun : (fun i : Nat =>
          if (i : Int) < xl * yl then f i || f i else f i) = f := by
        funext i
        split <;> simp
      show TileChangeset.mk
        (fun i : Nat => if (i : Int) < xl * yl then f i || f i else f i)
        s (hd || hd) xl yl = TileChangeset.mk f s hd xl yl
      rw [hfun, Bool.or_self]

/-- C8 witness: the two-chunk changeset of a 512x512 image merged with an
equal-dimension changeset. -/
theorem C8_merge_semantics_witness :
    (∀ cx cy : Int, 0 ≤ cx →
      cx < (TileChangeset.default0.init_chunks 2 2).chunk_x_len → 0 ≤ cy →
      cy < (TileChangeset.default0.init_chunks 2 2).chunk_y_len →
      (((TileChangeset.default0.init_chunks 2 2).merge
          (TileChangeset.default0.init_chunks 2 2)).is_chunk_dirty cx cy = true ↔
        ((TileChangeset.default0.init_chunks 2 2).is_chunk_dirty cx cy = true ∨
          (TileChangeset.default0.init_chunks 2 2).is_chunk_dirty cx cy = true))) ∧
    ((TileChangeset.default0.init_chunks 2 2).merge
        (TileChangeset.default0.init_chunks 2 2)).has_dirty_chunks =
      ((TileChangeset.default0.init_chunks 2 2).has_dirty_chunks ||
        (TileChangeset.default0.init_chunks 2 2).has_dirty_chunks) ∧
    (TileChangeset.default0.init_chunks 2 2).merge
        (TileChangeset.default0.init_chunks 2 2) =
      TileChangeset.default0.init_chunks 2 2 :=
  C8_merge_semantics (TileChangeset.default0.init_chunks 2 2)
    (TileChangeset.default0.init_chunks 2 2) rfl rfl
